import Mathlib

/-!
# Verification of the asterisk-router call-routing core

A shallow embedding of the Go sources of `asterisk-router-production`:
the provider registry and route table (`internal/provider/manager.go`),
the load balancer (`internal/loadbalancer/loadbalancer.go`), the routing
engine (the `Router` of `internal/router`), and the AGI gateway's hangup
handler (`internal/agi/server.go`).

Modelling conventions:

* Go maps become association lists `List (κ × α)` with first-match lookup;
  Go's `m[k] = v` becomes `insertA` (cons after erasing the key) and
  `delete(m, k)` becomes `eraseA`.  Go map iteration order is random, so
  every function that ranges over a map takes the entry list (an arbitrary
  order) as its input.
* The `dids` database table becomes a `List DID`; the SQL statements of
  `getAvailableDID` / `markDIDInUse` / `releaseDID` become list scans and
  maps.  `ORDER BY RAND()` is an unspecified selection order; the model
  selects the first eligible row.  Router methods run under `r.mu`, so a
  method body is one atomic step.
* `float64` state (success rate, average duration) is modelled by `ℚ`;
  `time.Time` / `time.Duration` by `Nat` seconds, with `now` an argument.
* `rand.Intn` draws are passed in as explicit `Nat` arguments.
* Fallible Go functions returning `(T, error)` become `Except String T`.
-/

namespace AsteriskRouter

/-! ## Association-list maps (the embedding of Go maps) -/

/-- First-match lookup in an association list (the value `m[k]` of a Go
map, `none` standing for absent). -/
def lookupA {κ α : Type} [DecidableEq κ] : List (κ × α) → κ → Option α
  | [], _ => none
  | e :: m, k => if e.1 = k then some e.2 else lookupA m k

/-- Remove every entry at a key (Go `delete(m, k)`). -/
def eraseA {κ α : Type} [DecidableEq κ] (m : List (κ × α)) (k : κ) : List (κ × α) :=
  m.filter fun e => decide (e.1 ≠ k)

/-- Overwriting insert (Go `m[k] = v`). -/
def insertA {κ α : Type} [DecidableEq κ] (m : List (κ × α)) (k : κ) (v : α) : List (κ × α) :=
  (k, v) :: eraseA m k

theorem eraseA_cons_of_eq {κ α : Type} [DecidableEq κ] {e : κ × α} (m : List (κ × α)) {k : κ}
    (he : e.1 = k) : eraseA (e :: m) k = eraseA m k := by
  simp [eraseA, he]

theorem eraseA_cons_of_ne {κ α : Type} [DecidableEq κ] {e : κ × α} (m : List (κ × α)) {k : κ}
    (he : e.1 ≠ k) : eraseA (e :: m) k = e :: eraseA m k := by
  simp [eraseA, he]

theorem lookupA_eraseA_self {κ α : Type} [DecidableEq κ] (m : List (κ × α)) (k : κ) :
    lookupA (eraseA m k) k = none := by
  induction m with
  | nil => rfl
  | cons e m ih =>
    by_cases he : e.1 = k
    · rw [eraseA_cons_of_eq m he]; exact ih
    · rw [eraseA_cons_of_ne m he]
      simpa [lookupA, he] using ih

theorem lookupA_eraseA_ne {κ α : Type} [DecidableEq κ] (m : List (κ × α)) {k k' : κ}
    (h : k' ≠ k) : lookupA (eraseA m k) k' = lookupA m k' := by
  induction m with
  | nil => rfl
  | cons e m ih =>
    by_cases he : e.1 = k
    · have hne : e.1 ≠ k' := fun hc => h (hc.symm.trans he)
      rw [eraseA_cons_of_eq m he, ih]
      simp [lookupA, hne]
    · rw [eraseA_cons_of_ne m he]
      by_cases he' : e.1 = k' <;> simp [lookupA, he', ih]

theorem lookupA_insertA_self {κ α : Type} [DecidableEq κ] (m : List (κ × α)) (k : κ) (v : α) :
    lookupA (insertA m k v) k = some v := by
  simp [insertA, lookupA]

theorem lookupA_insertA_ne {κ α : Type} [DecidableEq κ] (m : List (κ × α)) {k k' : κ} (v : α)
    (h : k' ≠ k) : lookupA (insertA m k v) k' = lookupA m k' := by
  have hne : k ≠ k' := fun hc => h hc.symm
  show (if k = k' then some v else lookupA (eraseA m k) k') = lookupA m k'
  rw [if_neg hne, lookupA_eraseA_ne m h]

theorem lookupA_eraseA_some {κ α : Type} [DecidableEq κ] {m : List (κ × α)} {k k' : κ} {v : α}
    (h : lookupA (eraseA m k) k' = some v) : k' ≠ k ∧ lookupA m k' = some v := by
  by_cases hk : k' = k
  · rw [hk, lookupA_eraseA_self] at h; cases h
  · exact ⟨hk, by rw [← lookupA_eraseA_ne m hk]; exact h⟩

theorem keys_eraseA_sublist {κ α : Type} [DecidableEq κ] (m : List (κ × α)) (k : κ) :
    ((eraseA m k).map Prod.fst).Sublist (m.map Prod.fst) :=
  ((List.filter_sublist m).map Prod.fst)

theorem keys_eraseA_nodup {κ α : Type} [DecidableEq κ] {m : List (κ × α)} (k : κ)
    (h : (m.map Prod.fst).Nodup) : ((eraseA m k).map Prod.fst).Nodup :=
  (keys_eraseA_sublist m k).nodup h

theorem not_mem_keys_eraseA {κ α : Type} [DecidableEq κ] (m : List (κ × α)) (k : κ) :
    k ∉ (eraseA m k).map Prod.fst := by
  intro hmem
  rcases List.mem_map.mp hmem with ⟨e, he, hk⟩
  have := List.of_mem_filter he
  simp [hk] at this

theorem keys_insertA_nodup {κ α : Type} [DecidableEq κ] {m : List (κ × α)} (k : κ) (v : α)
    (h : (m.map Prod.fst).Nodup) : ((insertA m k v).map Prod.fst).Nodup := by
  simp only [insertA, List.map_cons, List.nodup_cons]
  exact ⟨not_mem_keys_eraseA m k, keys_eraseA_nodup k h⟩

theorem lookupA_of_mem_nodup {κ α : Type} [DecidableEq κ] {m : List (κ × α)} {e : κ × α}
    (hnd : (m.map Prod.fst).Nodup) (hmem : e ∈ m) : lookupA m e.1 = some e.2 := by
  induction m with
  | nil => cases hmem
  | cons f m ih =>
    simp only [List.map_cons, List.nodup_cons] at hnd
    rcases List.mem_cons.mp hmem with rfl | hmem'
    · simp [lookupA]
    · have hne : f.1 ≠ e.1 := by
        intro hc; exact hnd.1 (hc ▸ List.mem_map.mpr ⟨e, hmem', rfl⟩)
      simp [lookupA, hne]; exact ih hnd.2 hmem'

/-! ## Data model (`internal/models/models.go`)

The structs the claims touch, with `time.Time` fields reduced to `Nat`
seconds and the DB-only bookkeeping fields (`ID`, `CreatedAt`, …) omitted:
no in-memory code path of the router reads them. -/

/-- `models.Provider` (a peer). `Type` is a Lean keyword, hence `typ`. -/
structure Provider where
  name : String
  typ : String
  host : String
  port : Int
  username : String
  password : String
  authType : String
  codecs : List String
  maxChannels : Int
  priority : Int
  weight : Int
  active : Bool
deriving DecidableEq, Repr

/-- The all-zero `Provider` (Go's zero value), used only where Go would
index a slice the callers guarantee non-empty. -/
def defaultProvider : Provider :=
  ⟨"", "", "", 0, "", "", "", [], 0, 0, 0, false⟩

/-- A row of the `dids` table (`models.DID`). -/
structure DID where
  number : String
  providerName : String
  inUse : Bool
  destination : String
deriving DecidableEq, Repr

/-- `models.ProviderRoute`. -/
structure Route where
  name : String
  inboundProvider : String
  intermediateProvider : String
  finalProvider : String
  loadBalanceMode : String
  priority : Int
  active : Bool
deriving DecidableEq, Repr

/-- `models.CallRecord` (the in-memory ledger entry; `EndTime`, `Duration`
and `RecordingPath` are only ever written to the database after the entry
leaves the maps, so they are not carried here). -/
structure CallRecord where
  callID : String
  originalANI : String
  originalDNIS : String
  transformedANI : String
  assignedDID : String
  inboundProvider : String
  intermediateProvider : String
  finalProvider : String
  status : String
  currentStep : String
  startTime : Nat
deriving DecidableEq, Repr

/-- `models.LoadBalancerStats`; the two `float64` fields become `ℚ`. -/
structure LBStats where
  providerName : String
  totalCalls : Int
  activeCalls : Int
  failedCalls : Int
  successRate : ℚ
  avgCallDuration : ℚ
  lastCallTime : Nat
  isHealthy : Bool
deriving DecidableEq, Repr

/-- `models.CallResponse`. -/
structure CallResponse where
  status : String
  didAssigned : String
  nextHop : String
  aniToSend : String
  dnisToSend : String
deriving DecidableEq, Repr

/-- A row of `call_verifications` as `storeVerificationRecord` writes it
(only the `ani`/`dnis` entries of the expected/received maps are read). -/
structure Verification where
  callID : String
  step : String
  expectedANI : String
  expectedDNIS : String
  receivedANI : String
  receivedDNIS : String
  sourceIP : String
  verified : Bool
deriving DecidableEq, Repr

/-! ## The DID pool (`Router.getAvailableDID` / `markDIDInUse` / `releaseDID`)

The `dids` table is a `List DID`.  `getAvailableDID` runs
`SELECT number FROM dids WHERE in_use = 0 AND provider_name = ? ORDER BY RAND() LIMIT 1`
and on `ErrNoRows` falls back to any free DID; `ORDER BY RAND()` leaves
the choice among eligible rows unspecified and the model takes the first.
All three run under the router mutex `r.mu` held by their callers, so an
acquire (select then mark) is one atomic step of the model. -/

/-- Pick a free DID for a provider, falling back to any free DID
(`Router.getAvailableDID`). -/
def getAvailableDID (providerName : String) (dids : List DID) : Option String :=
  match dids.find? (fun r => !r.inUse && decide (r.providerName = providerName)) with
  | some r => some r.number
  | none => (dids.find? (fun r => !r.inUse)).map DID.number

/-- `UPDATE dids SET in_use = 1, destination = ? WHERE number = ?`
(`Router.markDIDInUse`). -/
def markDIDInUse (dids : List DID) (did destination : String) : List DID :=
  dids.map fun r =>
    if r.number = did then { r with inUse := true, destination := destination } else r

/-- `UPDATE dids SET in_use = 0, destination = NULL WHERE number = ?`
(`Router.releaseDID`). -/
def releaseDID (dids : List DID) (did : String) : List DID :=
  dids.map fun r =>
    if r.number = did then { r with inUse := false, destination := "" } else r

/-- First row carrying a number (the row `WHERE number = ?` touches). -/
def findDID : List DID → String → Option DID
  | [], _ => none
  | r :: rs, n => if r.number = n then some r else findDID rs n

/-- Whether the pool holds the number marked in-use. -/
def didInUse (dids : List DID) (n : String) : Bool :=
  match findDID dids n with
  | some r => r.inUse
  | none => false

/-- The number of free DIDs in the pool. -/
def countFree (dids : List DID) : Nat :=
  (dids.filter fun r => !r.inUse).length

/-- One DID acquisition as `ProcessIncomingCall` performs it under `r.mu`:
the `getAvailableDID` selection followed by `markDIDInUse`. -/
def acquireDID (providerName destination : String) (dids : List DID) :
    Option String × List DID :=
  match getAvailableDID providerName dids with
  | none => (none, dids)
  | some n => (some n, markDIDInUse dids n destination)

/-- A batch of acquisitions, one after the other (concurrent acquires are
serialized by the router mutex). -/
def acquireMany : List (String × String) → List DID → List (Option String) × List DID
  | [], dids => ([], dids)
  | op :: ops, dids =>
    let step := acquireDID op.1 op.2 dids
    let rest := acquireMany ops step.2
    (step.1 :: rest.1, rest.2)

theorem getAvailableDID_eq_none {providerName : String} {dids : List DID} :
    getAvailableDID providerName dids = none ↔ countFree dids = 0 := by
  constructor
  · intro h
    rw [getAvailableDID] at h
    rcases hf : dids.find? (fun r => !r.inUse && decide (r.providerName = providerName)) with
      _ | r
    · rw [hf] at h
      rcases hg : dids.find? (fun r => !r.inUse) with _ | r'
      · have hall := List.find?_eq_none.mp hg
        have : dids.filter (fun r => !r.inUse) = [] :=
          List.filter_eq_nil_iff.mpr fun r hr => by simpa using hall r hr
        simp [countFree, this]
      · rw [hg] at h; cases h
    · rw [hf] at h; cases h
  · intro h
    have hall : ∀ r ∈ dids, r.inUse = true := by
      intro r hr
      have := List.filter_eq_nil_iff.mp (List.length_eq_zero.mp h) r hr
      simpa using this
    rw [getAvailableDID]
    have h1 : dids.find? (fun r => !r.inUse && decide (r.providerName = providerName)) = none :=
      List.find?_eq_none.mpr fun r hr => by simp [hall r hr]
    have h2 : dids.find? (fun r => !r.inUse) = none :=
      List.find?_eq_none.mpr fun r hr => by simp [hall r hr]
    rw [h1, h2]; rfl

theorem getAvailableDID_free {providerName : String} {dids : List DID} {n : String}
    (h : getAvailableDID providerName dids = some n) :
    ∃ r ∈ dids, r.number = n ∧ r.inUse = false := by
  rw [getAvailableDID] at h
  rcases hf : dids.find? (fun r => !r.inUse && decide (r.providerName = providerName)) with
    _ | r
  · rw [hf] at h
    rcases hg : dids.find? (fun r => !r.inUse) with _ | r'
    · rw [hg] at h; cases h
    · rw [hg] at h
      have hmem := List.mem_of_find?_eq_some hg
      have hfree := List.find?_some hg
      refine ⟨r', hmem, ?_, by simpa using hfree⟩
      simpa using h
  · rw [hf] at h
    have hmem := List.mem_of_find?_eq_some hf
    have hp := List.find?_some hf
    simp only [Bool.and_eq_true, Bool.not_eq_true'] at hp
    exact ⟨r, hmem, by simpa using h, hp.1⟩

theorem numbers_markDIDInUse (dids : List DID) (did destination : String) :
    (markDIDInUse dids did destination).map DID.number = dids.map DID.number := by
  induction dids with
  | nil => rfl
  | cons r rs ih =>
    by_cases h : r.number = did <;> simp [markDIDInUse, h] at ih ⊢ <;> exact ih

theorem numbers_releaseDID (dids : List DID) (did : String) :
    (releaseDID dids did).map DID.number = dids.map DID.number := by
  induction dids with
  | nil => rfl
  | cons r rs ih =>
    by_cases h : r.number = did <;> simp [releaseDID, h] at ih ⊢ <;> exact ih

theorem map_fixed_eq_self {α : Type} {f : α → α} :
    ∀ {l : List α}, (∀ x ∈ l, f x = x) → l.map f = l
  | [], _ => rfl
  | x :: l, h => by
    rw [List.map_cons, h x (List.mem_cons_self x l),
      map_fixed_eq_self fun y hy => h y (List.mem_cons_of_mem x hy)]

theorem markDIDInUse_of_not_mem {dids : List DID} {did : String} (destination : String)
    (h : ∀ r ∈ dids, r.number ≠ did) : markDIDInUse dids did destination = dids :=
  map_fixed_eq_self fun r hr => if_neg (h r hr)

theorem findDID_number : ∀ {dids : List DID} {n : String} {r : DID},
    findDID dids n = some r → r.number = n
  | [], _, _, h => by cases h
  | s :: rs, n, r, h => by
    by_cases hs : s.number = n
    · rw [findDID, if_pos hs] at h
      cases h; exact hs
    · rw [findDID, if_neg hs] at h
      exact findDID_number h

theorem findDID_map {f : DID → DID} (hf : ∀ r, (f r).number = r.number) :
    ∀ (dids : List DID) (n : String), findDID (dids.map f) n = (findDID dids n).map f
  | [], _ => rfl
  | r :: rs, n => by
    by_cases hr : r.number = n
    · rw [List.map_cons, findDID, findDID, if_pos hr, if_pos (by rw [hf]; exact hr)]
      rfl
    · rw [List.map_cons, findDID, findDID, if_neg hr, if_neg (by rw [hf]; exact hr)]
      exact findDID_map hf rs n

theorem findDID_isSome_of_mem : ∀ {dids : List DID} {r : DID} {n : String},
    r ∈ dids → r.number = n → ∃ s, findDID dids n = some s
  | [], r, _, hmem, _ => absurd hmem (List.not_mem_nil r)
  | s :: rs, r, n, hmem, hn => by
    by_cases hs : s.number = n
    · exact ⟨s, by rw [findDID, if_pos hs]⟩
    · rcases List.mem_cons.mp hmem with rfl | hmem'
      · exact absurd hn hs
      · rcases findDID_isSome_of_mem hmem' hn with ⟨t, ht⟩
        exact ⟨t, by rw [findDID, if_neg hs]; exact ht⟩

theorem findDID_of_mem_nodup {dids : List DID} {r : DID}
    (hnd : (dids.map DID.number).Nodup) (hmem : r ∈ dids) :
    findDID dids r.number = some r := by
  induction dids with
  | nil => cases hmem
  | cons s rs ih =>
    simp only [List.map_cons, List.nodup_cons] at hnd
    rcases List.mem_cons.mp hmem with rfl | hmem'
    · simp [findDID]
    · have hne : s.number ≠ r.number := by
        intro hc; exact hnd.1 (hc ▸ List.mem_map.mpr ⟨r, hmem', rfl⟩)
      simp only [findDID, if_neg hne]
      exact ih hnd.2 hmem'

theorem didInUse_markDIDInUse_self {dids : List DID} {did : String} (destination : String)
    (h : ∃ r ∈ dids, r.number = did) :
    didInUse (markDIDInUse dids did destination) did = true := by
  rcases h with ⟨r, hmem, hn⟩
  rcases findDID_isSome_of_mem hmem hn with ⟨s, hs⟩
  rw [didInUse, markDIDInUse, findDID_map (fun r => by split <;> rfl) dids did, hs]
  simp [if_pos (findDID_number hs)]

theorem didInUse_markDIDInUse_ne (dids : List DID) {did m : String} (destination : String)
    (h : m ≠ did) : didInUse (markDIDInUse dids did destination) m = didInUse dids m := by
  rw [didInUse, markDIDInUse, findDID_map (fun r => by split <;> rfl) dids m, didInUse]
  rcases hs : findDID dids m with _ | s
  · rfl
  · have : s.number ≠ did := by rw [findDID_number hs]; exact h
    simp [if_neg this]

theorem didInUse_releaseDID_self (dids : List DID) (did : String) :
    didInUse (releaseDID dids did) did = false := by
  rw [didInUse, releaseDID, findDID_map (fun r => by split <;> rfl) dids did]
  rcases hs : findDID dids did with _ | s
  · rfl
  · simp [if_pos (findDID_number hs)]

theorem didInUse_releaseDID_ne (dids : List DID) {did m : String}
    (h : m ≠ did) : didInUse (releaseDID dids did) m = didInUse dids m := by
  rw [didInUse, releaseDID, findDID_map (fun r => by split <;> rfl) dids m, didInUse]
  rcases hs : findDID dids m with _ | s
  · rfl
  · have : s.number ≠ did := by rw [findDID_number hs]; exact h
    simp [if_neg this]

theorem countFree_cons (r : DID) (rs : List DID) :
    countFree (r :: rs) = (if r.inUse then 0 else 1) + countFree rs := by
  by_cases h : r.inUse <;> simp [countFree, List.filter_cons, h] <;> omega

theorem countFree_markDIDInUse {dids : List DID} {r : DID}
    (hnd : (dids.map DID.number).Nodup) (hmem : r ∈ dids) (hfree : r.inUse = false)
    (destination : String) :
    countFree (markDIDInUse dids r.number destination) + 1 = countFree dids := by
  induction dids with
  | nil => cases hmem
  | cons s rs ih =>
    simp only [List.map_cons, List.nodup_cons] at hnd
    rcases List.mem_cons.mp hmem with rfl | hmem'
    · have hrn : ∀ x ∈ rs, x.number ≠ r.number := by
        intro x hx hc; exact hnd.1 (hc ▸ List.mem_map.mpr ⟨x, hx, rfl⟩)
      show countFree ((if r.number = r.number then
          { r with inUse := true, destination := destination } else r) ::
          markDIDInUse rs r.number destination) + 1 = countFree (r :: rs)
      rw [if_pos rfl, markDIDInUse_of_not_mem destination hrn,
        countFree_cons, countFree_cons, hfree]
      simp [Nat.add_comm]
    · have hsr : s.number ≠ r.number := by
        intro hc; exact hnd.1 (hc ▸ List.mem_map.mpr ⟨r, hmem', rfl⟩)
      have hrec := ih hnd.2 hmem'
      show countFree ((if s.number = r.number then
          { s with inUse := true, destination := destination } else s) ::
          markDIDInUse rs r.number destination) + 1 = countFree (s :: rs)
      rw [if_neg hsr, countFree_cons, countFree_cons]
      omega

theorem acquireMany_spec :
    ∀ (ops : List (String × String)) (dids : List DID),
      (dids.map DID.number).Nodup →
      ((acquireMany ops dids).1.filterMap id).length = min ops.length (countFree dids) ∧
      (∀ n ∈ (acquireMany ops dids).1.filterMap id, didInUse dids n = false) ∧
      ((acquireMany ops dids).1.filterMap id).Nodup
  | [], dids, _ => by simp [acquireMany]
  | op :: ops, dids, hnd => by
    rcases hsel : getAvailableDID op.1 dids with _ | n
    · have hzero : countFree dids = 0 := getAvailableDID_eq_none.mp hsel
      have ih := acquireMany_spec ops dids hnd
      simp only [acquireMany, acquireDID, hsel]
      have hred : List.filterMap id (none :: (acquireMany ops dids).1) =
          List.filterMap id (acquireMany ops dids).1 := rfl
      rw [hred]
      exact ⟨by rw [ih.1, hzero]; simp, ih.2.1, ih.2.2⟩
    · rcases getAvailableDID_free hsel with ⟨r, hmem, hn, hfree⟩
      have hnd1 : ((markDIDInUse dids n op.2).map DID.number).Nodup := by
        rw [numbers_markDIDInUse]; exact hnd
      have ih := acquireMany_spec ops (markDIDInUse dids n op.2) hnd1
      have hcf : countFree (markDIDInUse dids n op.2) + 1 = countFree dids := by
        rw [← hn]; exact countFree_markDIDInUse hnd hmem hfree op.2
      have hmarked : didInUse (markDIDInUse dids n op.2) n = true :=
        didInUse_markDIDInUse_self op.2 ⟨r, hmem, hn⟩
      have hwasFree : didInUse dids n = false := by
        rw [didInUse, ← hn, findDID_of_mem_nodup hnd hmem]
        exact hfree
      simp only [acquireMany, acquireDID, hsel]
      have hred : List.filterMap id (some n :: (acquireMany ops (markDIDInUse dids n op.2)).1) =
          n :: List.filterMap id (acquireMany ops (markDIDInUse dids n op.2)).1 := rfl
      rw [hred]
      refine ⟨?_, ?_, ?_⟩
      · rw [List.length_cons, ih.1, ← hcf]
        exact (Nat.succ_min_succ ops.length _).symm
      · intro m hm
        rcases List.mem_cons.mp hm with rfl | hm'
        · exact hwasFree
        · by_cases hmn : m = n
          · subst hmn
            rw [ih.2.1 m hm'] at hmarked
            cases hmarked
          · rw [← didInUse_markDIDInUse_ne dids op.2 hmn]
            exact ih.2.1 m hm'
      · refine List.nodup_cons.mpr ⟨?_, ih.2.2⟩
        intro hmemr
        rw [ih.2.1 n hmemr] at hmarked
        cases hmarked

/-- C2.  Over any sequence of DID acquisitions against a pool whose
numbers are distinct (the `dids` table has a unique key on `number`),
exactly `min(N, M)` of the `N` acquisitions succeed when `M` DIDs are
free, every successful acquisition returns a DID that was free, and the
returned DIDs are pairwise distinct — in particular two acquisitions
competing for the last free DID never both succeed.  Concurrent calls are
serialized by the router mutex `r.mu`, which every caller of
`getAvailableDID`/`markDIDInUse` holds, so a batch of concurrent acquires
is an arbitrary sequence of atomic select-then-mark steps. -/
theorem did_acquire_exactly_min (ops : List (String × String)) (dids : List DID)
    (hnd : (dids.map DID.number).Nodup) :
    ((acquireMany ops dids).1.filterMap id).length = min ops.length (countFree dids) ∧
    (∀ n ∈ (acquireMany ops dids).1.filterMap id, didInUse dids n = false) ∧
    ((acquireMany ops dids).1.filterMap id).Nodup :=
  acquireMany_spec ops dids hnd

/-- C2 witness: two acquisitions race for a pool holding a single free
DID; exactly `min 2 1 = 1` succeeds. -/
theorem did_acquire_exactly_min_witness :
    (([(("s3a" : String), ("15550000002" : String)), (("s3a" : String), ("15550000003" : String))].map
        Prod.fst ≠ []) ∧
      ((acquireMany [("s3a", "15550000002"), ("s3a", "15550000003")]
          [⟨"18005550001", "s3a", false, ""⟩]).1.filterMap id).length =
        min 2 (countFree [⟨"18005550001", "s3a", false, ""⟩])) ∧
    ((acquireMany [("s3a", "15550000002"), ("s3a", "15550000003")]
        [⟨"18005550001", "s3a", false, ""⟩]).1.filterMap id).Nodup := by
  have h := did_acquire_exactly_min
    [("s3a", "15550000002"), ("s3a", "15550000003")]
    [⟨"18005550001", "s3a", false, ""⟩] (by decide)
  exact ⟨⟨by decide, h.1⟩, h.2.2⟩

/-! ## The load balancer (`internal/loadbalancer/loadbalancer.go`)

`LoadBalancer` state is the pair of its two maps.  The round-robin cursor
key is Go's `fmt.Sprintf("%v", providers)` — the textual rendering of the
slice of `*Provider` pointers, which within one process run identifies the
ordered sequence of provider objects; since the manager holds one object
per provider name, the key is modelled as the ordered list of names. -/

/-- The mutable state of a `LoadBalancer` (`providerStats` and
`roundRobinIndex`). -/
structure LBState where
  stats : List (String × LBStats)
  rrIndex : List (List String × Nat)
deriving DecidableEq, Repr

/-- `&LoadBalancerStats{ProviderName: name, IsHealthy: true}` — the
record both `UpdateStats` and `IncrementActiveCalls` create for an unseen
peer, and the value `GetProviderStats` returns for one. -/
def initStats (name : String) : LBStats :=
  ⟨name, 0, 0, 0, 0, 0, 0, true⟩

/-- The stats record consulted for a peer, or the fresh initial record. -/
def getStatsOrInit (lb : LBState) (name : String) : LBStats :=
  (lookupA lb.stats name).getD (initStats name)

/-- `filterHealthyProviders`: active, and (no stats yet, or healthy and
under the channel cap). -/
def filterHealthyProviders (lb : LBState) (providers : List Provider) : List Provider :=
  providers.filter fun p =>
    p.active &&
      match lookupA lb.stats p.name with
      | none => true
      | some st =>
        st.isHealthy && (decide (p.maxChannels = 0) || decide (st.activeCalls < p.maxChannels))

/-- `roundRobin`: cursor keyed by the rendering of the candidate slice
(modelled by its ordered name list), missing key read as 0, then
post-incremented.  Go indexes `providers[index%len(providers)]`, which
panics on an empty slice; callers guarantee non-emptiness and the model
returns `defaultProvider` there. -/
def roundRobin (lb : LBState) (providers : List Provider) : Provider × LBState :=
  let key := providers.map Provider.name
  let index := (lookupA lb.rrIndex key).getD 0
  (providers.getD (index % providers.length) defaultProvider,
    { lb with rrIndex := insertA lb.rrIndex key (index + 1) })

/-- The loop of `weightedRandom`: subtract weights until the draw goes
negative (`none` = the loop fell through). -/
def weightedPickLoop : Int → List Provider → Option Provider
  | _, [] => none
  | r, p :: ps => if r - p.weight < 0 then some p else weightedPickLoop (r - p.weight) ps

/-- `weightedRandom` with the `rand.Intn` draw passed in as `r`. -/
def weightedRandom (providers : List Provider) (r : Nat) : Provider :=
  let totalWeight : Int := (providers.map Provider.weight).sum
  if totalWeight = 0 then providers.getD (r % providers.length) defaultProvider
  else
    match weightedPickLoop ((r : Int) % totalWeight) providers with
    | some p => p
    | none => providers.getD (providers.length - 1) defaultProvider

/-- Insert into a priority-descending list.  `sort.Slice` in `priority`
and `failover` is an unstable sort; this insertion sort realizes one of
its admissible outcomes (ties keep list order). -/
def insertByPriority (p : Provider) : List Provider → List Provider
  | [] => [p]
  | q :: qs => if p.priority > q.priority then p :: q :: qs else q :: insertByPriority p qs

/-- Sort by `priority` descending. -/
def sortByPriorityDesc : List Provider → List Provider
  | [] => []
  | p :: ps => insertByPriority p (sortByPriorityDesc ps)

/-- `priority` mode: highest priority first. -/
def prioritySelect (providers : List Provider) : Provider :=
  (sortByPriorityDesc providers).getD 0 defaultProvider

/-- `failover` mode: first healthy in priority order, else the overall
first. -/
def failover (lb : LBState) (providers : List Provider) : Provider :=
  let sorted := sortByPriorityDesc providers
  match sorted.find? (fun p => (getStatsOrInit lb p.name).isHealthy) with
  | some p => p
  | none => sorted.getD 0 defaultProvider

/-- `SelectProvider`: empty-candidate and no-healthy failures, then mode
dispatch (unknown modes fall back to round robin).  `r` is the
`rand.Intn` draw a weighted selection would consume. -/
def selectProvider (lb : LBState) (providers : List Provider) (mode : String) (r : Nat) :
    Except String (Provider × LBState) :=
  if providers.isEmpty then .error "no providers available"
  else
    let activeProviders := filterHealthyProviders lb providers
    if activeProviders.isEmpty then .error "no healthy providers available"
    else
      match mode with
      | "round_robin" => .ok (roundRobin lb activeProviders)
      | "weighted" => .ok (weightedRandom activeProviders r, lb)
      | "priority" => .ok (prioritySelect activeProviders, lb)
      | "failover" => .ok (failover lb activeProviders, lb)
      | _ => .ok (roundRobin lb activeProviders)

/-- The per-record body of `UpdateStats`: bump totals, fold the duration
into the running mean on success (total already incremented), count the
failure otherwise, recompute the success rate, and demote the peer when
`TotalCalls > 10 ∧ SuccessRate < 50`. -/
def updateStatsOne (st : LBStats) (callSucceeded : Bool) (duration : ℚ) (now : Nat) : LBStats :=
  let st1 := { st with totalCalls := st.totalCalls + 1, lastCallTime := now }
  let st2 :=
    if callSucceeded then
      if 0 < duration then
        { st1 with avgCallDuration :=
            (st1.avgCallDuration * ((st1.totalCalls : ℚ) - 1) + duration) / (st1.totalCalls : ℚ) }
      else st1
    else { st1 with failedCalls := st1.failedCalls + 1 }
  let st3 := { st2 with successRate :=
      ((st2.totalCalls : ℚ) - (st2.failedCalls : ℚ)) / (st2.totalCalls : ℚ) * 100 }
  if 10 < st3.totalCalls ∧ st3.successRate < 50 then { st3 with isHealthy := false } else st3

/-- `UpdateStats` at the map level (the async DB mirror write is an
external effect). -/
def updateStats (lb : LBState) (name : String) (callSucceeded : Bool) (duration : ℚ)
    (now : Nat) : LBState :=
  { lb with stats :=
      insertA lb.stats name (updateStatsOne (getStatsOrInit lb name) callSucceeded duration now) }

/-- `IncrementActiveCalls`: adjust the active-channel counter, floored at
zero. -/
def incrementActiveCalls (lb : LBState) (name : String) (delta : Int) : LBState :=
  let st := getStatsOrInit lb name
  let a := st.activeCalls + delta
  { lb with stats := insertA lb.stats name { st with activeCalls := if a < 0 then 0 else a } }

/-- C9.  After every `UpdateStats` call, against any prior state (hence
after each call of any call sequence): the stored record for the peer is
the updated one; its success rate equals
`(total − failed) / total × 100` over the accumulated totals; the peer is
demoted whenever `total > 10` and the rate is below 50; and a call whose
resulting rate is at least 50 leaves the health flag exactly as it was —
so a peer whose success rate stays at or above 50 is never demoted by
`UpdateStats`.  (`float64` arithmetic of the source is modelled by `ℚ`.) -/
theorem updateStatsOne_rate_eq (st : LBStats) (callSucceeded : Bool) (duration : ℚ)
    (now : Nat) :
    (updateStatsOne st callSucceeded duration now).successRate =
      (((updateStatsOne st callSucceeded duration now).totalCalls : ℚ) -
          ((updateStatsOne st callSucceeded duration now).failedCalls : ℚ)) /
        ((updateStatsOne st callSucceeded duration now).totalCalls : ℚ) * 100 := by
  simp only [updateStatsOne]
  split_ifs <;> rfl

theorem updateStatsOne_isHealthy (st : LBStats) (callSucceeded : Bool) (duration : ℚ)
    (now : Nat) :
    ((updateStatsOne st callSucceeded duration now).isHealthy = st.isHealthy ∧
      ¬(10 < (updateStatsOne st callSucceeded duration now).totalCalls ∧
          (updateStatsOne st callSucceeded duration now).successRate < 50)) ∨
    ((updateStatsOne st callSucceeded duration now).isHealthy = false ∧
      10 < (updateStatsOne st callSucceeded duration now).totalCalls ∧
        (updateStatsOne st callSucceeded duration now).successRate < 50) := by
  simp only [updateStatsOne]
  split_ifs <;>
    first
      | exact Or.inr ⟨rfl, by assumption⟩
      | exact Or.inl ⟨rfl, by assumption⟩

/-- C9.  After every `UpdateStats` call, against any prior state (hence
after each call of any call sequence): the stored record for the peer is
the updated one; its success rate equals
`(total − failed) / total × 100` over the accumulated totals; the peer is
demoted whenever `total > 10` and the rate is below 50; and a call whose
resulting rate is at least 50 leaves the health flag exactly as it was —
so a peer whose success rate stays at or above 50 is never demoted by
`UpdateStats`.  (`float64` arithmetic of the source is modelled by `ℚ`.) -/
theorem update_stats_success_rate (lb : LBState) (name : String) (callSucceeded : Bool)
    (duration : ℚ) (now : Nat) (st' : LBStats)
    (h : st' = updateStatsOne (getStatsOrInit lb name) callSucceeded duration now) :
    lookupA (updateStats lb name callSucceeded duration now).stats name = some st' ∧
    st'.successRate =
      ((st'.totalCalls : ℚ) - (st'.failedCalls : ℚ)) / (st'.totalCalls : ℚ) * 100 ∧
    (10 < st'.totalCalls ∧ st'.successRate < 50 → st'.isHealthy = false) ∧
    (50 ≤ st'.successRate → st'.isHealthy = (getStatsOrInit lb name).isHealthy) := by
  subst h
  refine ⟨lookupA_insertA_self _ _ _, updateStatsOne_rate_eq _ _ _ _, ?_, ?_⟩
  · rcases updateStatsOne_isHealthy (getStatsOrInit lb name) callSucceeded duration now with
      ⟨_, hnot⟩ | ⟨hf, _⟩
    · exact fun hcond => absurd hcond hnot
    · exact fun _ => hf
  · rcases updateStatsOne_isHealthy (getStatsOrInit lb name) callSucceeded duration now with
      ⟨heq, _⟩ | ⟨_, hcond⟩
    · exact fun _ => heq
    · exact fun hge => absurd hcond.2 (not_lt.mpr hge)

/-- C9 witness: one failed call against a fresh peer leaves the rate at 0
but the peer healthy (total not yet above 10). -/
theorem update_stats_success_rate_witness :
    lookupA (updateStats ⟨[], []⟩ "s3a" false 0 7).stats "s3a" =
      some (updateStatsOne (getStatsOrInit ⟨[], []⟩ "s3a") false 0 7) ∧
    (updateStatsOne (getStatsOrInit ⟨[], []⟩ "s3a") false 0 7).successRate =
      (((updateStatsOne (getStatsOrInit ⟨[], []⟩ "s3a") false 0 7).totalCalls : ℚ) -
          ((updateStatsOne (getStatsOrInit ⟨[], []⟩ "s3a") false 0 7).failedCalls : ℚ)) /
        ((updateStatsOne (getStatsOrInit ⟨[], []⟩ "s3a") false 0 7).totalCalls : ℚ) * 100 ∧
    (10 < (updateStatsOne (getStatsOrInit ⟨[], []⟩ "s3a") false 0 7).totalCalls ∧
        (updateStatsOne (getStatsOrInit ⟨[], []⟩ "s3a") false 0 7).successRate < 50 →
      (updateStatsOne (getStatsOrInit ⟨[], []⟩ "s3a") false 0 7).isHealthy = false) ∧
    (50 ≤ (updateStatsOne (getStatsOrInit ⟨[], []⟩ "s3a") false 0 7).successRate →
      (updateStatsOne (getStatsOrInit ⟨[], []⟩ "s3a") false 0 7).isHealthy =
        (getStatsOrInit ⟨[], []⟩ "s3a").isHealthy) :=
  update_stats_success_rate ⟨[], []⟩ "s3a" false 0 7 _ rfl

/-! ## Round-robin runs (for the fairness law) -/

/-- The cursor the round-robin mode reads for a candidate list. -/
def rrCursor (lb : LBState) (providers : List Provider) : Nat :=
  (lookupA lb.rrIndex (providers.map Provider.name)).getD 0

/-- `m` successive round-robin selections over the same candidate list. -/
def rrRun (lb : LBState) (providers : List Provider) : Nat → List Provider × LBState
  | 0 => ([], lb)
  | m + 1 =>
    let first := roundRobin lb providers
    let rest := rrRun first.2 providers m
    (first.1 :: rest.1, rest.2)

theorem rrCursor_roundRobin (lb : LBState) (providers : List Provider) :
    rrCursor (roundRobin lb providers).2 providers = rrCursor lb providers + 1 := by
  simp only [rrCursor, roundRobin, lookupA_insertA_self, Option.getD_some]

theorem roundRobin_fst (lb : LBState) (providers : List Provider) :
    (roundRobin lb providers).1 =
      providers.getD (rrCursor lb providers % providers.length) defaultProvider := rfl

theorem rrRun_results (providers : List Provider) :
    ∀ (m : Nat) (lb : LBState),
      (rrRun lb providers m).1 =
        (List.range m).map fun i =>
          providers.getD ((rrCursor lb providers + i) % providers.length) defaultProvider
  | 0, _ => rfl
  | m + 1, lb => by
    show (roundRobin lb providers).1 :: (rrRun (roundRobin lb providers).2 providers m).1 = _
    rw [rrRun_results providers m (roundRobin lb providers).2, List.range_succ_eq_map,
      List.map_cons, List.map_map, roundRobin_fst, rrCursor_roundRobin]
    refine congrArg₂ _ (by rw [Nat.add_zero]) (List.map_congr_left ?_)
    intro i _
    simp only [Function.comp_apply]
    congr 2
    omega

theorem range_map_mod_eq_rotate (providers : List Provider) (c : Nat) :
    ((List.range providers.length).map fun i =>
        providers.getD ((c + i) % providers.length) defaultProvider) =
      providers.rotate c := by
  apply List.ext_get
  · simp [List.length_rotate]
  · intro i h₁ h₂
    have hk : 0 < providers.length := by
      by_contra hk
      rw [List.length_map, List.length_range] at h₁
      omega
    have hi : i < providers.length := by
      rw [List.length_map, List.length_range] at h₁
      exact h₁
    rw [List.get_map, List.get_rotate]
    have harg : (List.range providers.length).get ⟨i, by rw [List.length_range]; exact hi⟩ = i := by
      simp
    rw [harg, List.getD_eq_getElem _ _ (Nat.mod_lt _ hk)]
    simp only [List.get_eq_getElem]
    congr 1
    rw [Nat.add_comm c i]

theorem count_range_mod (providers : List Provider) (p : Provider) :
    ∀ (n : Nat) (c : Nat),
      (((List.range (providers.length * n)).map fun i =>
          providers.getD ((c + i) % providers.length) defaultProvider).count p) =
        n * providers.count p
  | 0, c => by simp
  | n + 1, c => by
    have hsplit : providers.length * (n + 1) = providers.length * n + providers.length := rfl
    rw [hsplit, List.range_add, List.map_append, List.count_append, List.map_map,
      count_range_mod providers p n c]
    have hlast : ((List.range providers.length).map
        ((fun i => providers.getD ((c + i) % providers.length) defaultProvider) ∘
          (fun i => providers.length * n + i))).count p = providers.count p := by
      have hfun : ((fun i => providers.getD ((c + i) % providers.length) defaultProvider) ∘
          (fun i => providers.length * n + i)) =
          fun i => providers.getD (((c + providers.length * n) + i) % providers.length)
            defaultProvider := by
        funext i
        simp only [Function.comp_apply]
        congr 2
        omega
      rw [hfun, range_map_mod_eq_rotate]
      exact (providers.rotate_perm _).count_eq p
    rw [hlast, Nat.succ_mul]

/-- C7 amended.  The round-robin cursor is keyed by the textual rendering
of the candidate slice, so the fairness law holds per *ordered* candidate
list: `k·n` successive selections over the same list of `k` peers return
each peer exactly `n` times (generally, `n` times its multiplicity in the
list), from any starting cursor.  Equal candidate sets presented in a
different order use an independent cursor (see the counterexample). -/
theorem round_robin_fairness_per_list (lb : LBState) (providers : List Provider)
    (n : Nat) (p : Provider) :
    ((rrRun lb providers (providers.length * n)).1.count p = n * providers.count p) ∧
    (providers.Nodup → p ∈ providers →
      (rrRun lb providers (providers.length * n)).1.count p = n) := by
  have h : (rrRun lb providers (providers.length * n)).1.count p = n * providers.count p := by
    rw [rrRun_results providers (providers.length * n) lb]
    exact count_range_mod providers p n (rrCursor lb providers)
  refine ⟨h, fun hnd hmem => ?_⟩
  rw [h, List.count_eq_one_of_mem hnd hmem, Nat.mul_one]

/-- A concrete active peer named `a` (for the round-robin keying
counterexample). -/
def rrPeerA : Provider := { defaultProvider with name := "a", active := true, weight := 1 }

/-- A concrete active peer named `b`. -/
def rrPeerB : Provider := { defaultProvider with name := "b", active := true, weight := 1 }

/-- C7 counterexample.  The cursor is keyed on the rendering of the
ordered candidate slice, not on the identity of the candidate *set*: after
one selection over `[a, b]` the stored cursor sits under the key
`["a", "b"]` only, a selection over the reordered equal set `[b, a]` reads
a fresh cursor 0 and returns `b` — whereas one cursor shared per set (at 1
after the first call) would return the element at index 1 of `[b, a]`,
namely `a`. -/
theorem round_robin_cursor_order_sensitive :
    ((roundRobin ⟨[], []⟩ [rrPeerA, rrPeerB]).1.name = "a") ∧
    (lookupA (roundRobin ⟨[], []⟩ [rrPeerA, rrPeerB]).2.rrIndex ["a", "b"] = some 1) ∧
    (lookupA (roundRobin ⟨[], []⟩ [rrPeerA, rrPeerB]).2.rrIndex ["b", "a"] = none) ∧
    ((roundRobin (roundRobin ⟨[], []⟩ [rrPeerA, rrPeerB]).2 [rrPeerB, rrPeerA]).1.name = "b") ∧
    (([rrPeerB, rrPeerA].getD (1 % 2) defaultProvider).name = "a") := by
  decide

/-! ## The provider manager (`internal/provider/manager.go`)

The manager's in-memory maps are `providers : List (String × Provider)`
and `routes : List Route` (the route map's entries in an arbitrary
iteration order — Go map ranging is randomized).  Database writes
(`INSERT … ON DUPLICATE KEY UPDATE`) and ARA endpoint creation are
external effects outside the model. -/

/-- `Manager.GetProvider` (success value; the not-found error is the
`none`). -/
def getProvider (providers : List (String × Provider)) (name : String) : Option Provider :=
  lookupA providers name

/-- `Manager.GetProvidersByName`: exact name match first, otherwise every
provider whose name or type equals the pattern; the empty result is the
`no providers found` error at the caller. -/
def getProvidersByName (providers : List (String × Provider)) (namePattern : String) :
    List Provider :=
  match lookupA providers namePattern with
  | some p => [p]
  | none =>
    (providers.filter fun e => decide (e.1 = namePattern) || decide (e.2.typ = namePattern)).map
      Prod.snd

/-- `Manager.AddProvider`: validation, port default, auth-mode derivation
from the credential fields, codec default, then the in-memory store
`m.providers[p.Name] = p`. -/
def addProvider (providers : List (String × Provider)) (p : Provider) :
    Except String (List (String × Provider) × Provider) :=
  if p.name = "" ∨ p.host = "" then .error "provider name and host are required"
  else
    let p1 := if p.port = 0 then { p with port := 5060 } else p
    let p2 :=
      if p1.username = "" ∧ p1.password = "" then { p1 with authType := "ip" }
      else { p1 with authType := "credentials" }
    let p3 := if p2.codecs.isEmpty then { p2 with codecs := ["ulaw", "alaw"] } else p2
    .ok (insertA providers p3.name p3, p3)

/-- The running best of `GetRouteForInbound`'s scan (`highestPriority`
starts at `-1` and always equals the kept route's priority). -/
def bestPriority : Option Route → Int
  | none => -1
  | some r => r.priority

/-- One iteration of `GetRouteForInbound`'s loop: keep the route when it
matches the inbound provider, is active, and *strictly* beats the best
priority seen so far. -/
def routeStep (inboundProvider : String) (best : Option Route) (route : Route) : Option Route :=
  if route.inboundProvider = inboundProvider ∧ route.active = true ∧
      bestPriority best < route.priority
  then some route else best

/-- `Manager.GetRouteForInbound` over the route map's entries in iteration
order; `none` is the `no active route found` error. -/
def getRouteForInbound (routes : List Route) (inboundProvider : String) : Option Route :=
  routes.foldl (routeStep inboundProvider) none

/-- `Router.verifyProviderIP`: strip the port from the source address and
compare against `host` when the peer authenticates by ip (or both).
`strings.Split(sourceIP, ":")[0]` is the prefix before the first colon
(the whole string when there is none), computed here over the character
list. -/
def extractIP (sourceIP : String) : String :=
  String.mk (sourceIP.toList.takeWhile fun c => c ≠ ':')

/-- The verification result (`nil` = `.ok ()`). -/
def verifyProviderIP (p : Provider) (sourceIP : String) : Except String Unit :=
  if (p.authType = "ip" ∨ p.authType = "both") ∧ p.host ≠ extractIP sourceIP then
    .error ("IP mismatch: expected " ++ p.host ++ ", got " ++ extractIP sourceIP)
  else .ok ()

theorem verifyProviderIP_credentials {p : Provider} (h : p.authType = "credentials")
    (sourceIP : String) : verifyProviderIP p sourceIP = .ok () := by
  rw [verifyProviderIP, if_neg]
  rintro ⟨hor, _⟩
  rw [h] at hor
  exact absurd hor (by decide)

theorem addProvider_ok_val {providers : List (String × Provider)} {p : Provider}
    {providers' : List (String × Provider)} {q : Provider}
    (h : addProvider providers p = .ok (providers', q)) :
    q.authType = (if p.username = "" ∧ p.password = "" then "ip" else "credentials") ∧
    q.username = p.username ∧ q.password = p.password ∧
    providers' = insertA providers q.name q := by
  by_cases hval : p.name = "" ∨ p.host = ""
  · rw [addProvider, if_pos hval] at h; cases h
  · rw [addProvider, if_neg hval] at h
    by_cases hport : p.port = 0
    · rw [if_pos hport] at h
      dsimp only at h
      by_cases hcred : p.username = "" ∧ p.password = ""
      · rw [if_pos hcred] at h
        dsimp only at h
        by_cases hcodec : p.codecs.isEmpty = true
        · rw [if_pos hcodec] at h
          simp only [Except.ok.injEq, Prod.mk.injEq] at h
          obtain ⟨rfl, rfl⟩ := h
          exact ⟨by rw [if_pos hcred], rfl, rfl, rfl⟩
        · rw [if_neg hcodec] at h
          simp only [Except.ok.injEq, Prod.mk.injEq] at h
          obtain ⟨rfl, rfl⟩ := h
          exact ⟨by rw [if_pos hcred], rfl, rfl, rfl⟩
      · rw [if_neg hcred] at h
        dsimp only at h
        by_cases hcodec : p.codecs.isEmpty = true
        · rw [if_pos hcodec] at h
          simp only [Except.ok.injEq, Prod.mk.injEq] at h
          obtain ⟨rfl, rfl⟩ := h
          exact ⟨by rw [if_neg hcred], rfl, rfl, rfl⟩
        · rw [if_neg hcodec] at h
          simp only [Except.ok.injEq, Prod.mk.injEq] at h
          obtain ⟨rfl, rfl⟩ := h
          exact ⟨by rw [if_neg hcred], rfl, rfl, rfl⟩
    · rw [if_neg hport] at h
      dsimp only at h
      by_cases hcred : p.username = "" ∧ p.password = ""
      · rw [if_pos hcred] at h
        dsimp only at h
        by_cases hcodec : p.codecs.isEmpty = true
        · rw [if_pos hcodec] at h
          simp only [Except.ok.injEq, Prod.mk.injEq] at h
          obtain ⟨rfl, rfl⟩ := h
          exact ⟨by rw [if_pos hcred], rfl, rfl, rfl⟩
        · rw [if_neg hcodec] at h
          simp only [Except.ok.injEq, Prod.mk.injEq] at h
          obtain ⟨rfl, rfl⟩ := h
          exact ⟨by rw [if_pos hcred], rfl, rfl, rfl⟩
      · rw [if_neg hcred] at h
        dsimp only at h
        by_cases hcodec : p.codecs.isEmpty = true
        · rw [if_pos hcodec] at h
          simp only [Except.ok.injEq, Prod.mk.injEq] at h
          obtain ⟨rfl, rfl⟩ := h
          exact ⟨by rw [if_neg hcred], rfl, rfl, rfl⟩
        · rw [if_neg hcodec] at h
          simp only [Except.ok.injEq, Prod.mk.injEq] at h
          obtain ⟨rfl, rfl⟩ := h
          exact ⟨by rw [if_neg hcred], rfl, rfl, rfl⟩

/-- C10.  `AddProvider` derives the stored auth mode solely from the
credential fields, overwriting whatever the caller supplied: the stored
peer has auth mode `"ip"` exactly when username and password are both
empty and `"credentials"` otherwise, never `"both"`; and since
`verifyProviderIP` checks only the modes `"ip"` and `"both"`, every peer
stored with a username or password passes source-IP verification (legs 3
and 5) for every source address. -/
theorem add_provider_auth_mode (providers : List (String × Provider)) (p : Provider)
    (providers' : List (String × Provider)) (q : Provider)
    (h : addProvider providers p = .ok (providers', q)) :
    (q.authType = "ip" ↔ p.username = "" ∧ p.password = "") ∧
    q.authType ≠ "both" ∧
    (q.authType = "ip" ∨ q.authType = "credentials") ∧
    lookupA providers' q.name = some q ∧
    ((p.username ≠ "" ∨ p.password ≠ "") →
      ∀ sourceIP, verifyProviderIP q sourceIP = .ok ()) := by
  obtain ⟨hauth, huser, hpass, hstore⟩ := addProvider_ok_val h
  by_cases hcred : p.username = "" ∧ p.password = ""
  · rw [if_pos hcred] at hauth
    refine ⟨by rw [hauth]; exact ⟨fun _ => hcred, fun _ => rfl⟩, by rw [hauth]; decide,
      Or.inl hauth, by rw [hstore]; exact lookupA_insertA_self _ _ _, ?_⟩
    intro hcontra _
    rcases hcontra with hu | hp
    · exact absurd hcred.1 hu
    · exact absurd hcred.2 hp
  · rw [if_neg hcred] at hauth
    refine ⟨by rw [hauth]; exact ⟨fun hc => absurd hc (by decide), fun hc => absurd hc hcred⟩,
      by rw [hauth]; decide, Or.inr hauth,
      by rw [hstore]; exact lookupA_insertA_self _ _ _, ?_⟩
    exact fun _ sourceIP => verifyProviderIP_credentials hauth sourceIP

/-- A peer submitted to `AddProvider` with credentials set. -/
def credPeer : Provider :=
  ⟨"s3a", "intermediate", "10.0.0.20", 5060, "user", "pass", "", ["ulaw"], 0, 0, 1, true⟩

/-- What `AddProvider` stores for `credPeer`: auth mode derived to
`credentials`. -/
def credPeerStored : Provider :=
  ⟨"s3a", "intermediate", "10.0.0.20", 5060, "user", "pass", "credentials", ["ulaw"], 0, 0, 1,
    true⟩

/-- C10 witness: a peer added with a username is stored in credentials
mode and passes IP verification from an arbitrary mismatching address. -/
theorem add_provider_auth_mode_witness :
    ((credPeerStored.authType = "ip" ↔ credPeer.username = "" ∧ credPeer.password = "") ∧
      credPeerStored.authType ≠ "both" ∧
      (credPeerStored.authType = "ip" ∨ credPeerStored.authType = "credentials") ∧
      lookupA (insertA [] credPeerStored.name credPeerStored) credPeerStored.name =
        some credPeerStored ∧
      ((credPeer.username ≠ "" ∨ credPeer.password ≠ "") →
        ∀ sourceIP, verifyProviderIP credPeerStored sourceIP = .ok ())) ∧
    verifyProviderIP credPeerStored "203.0.113.9:5060" = .ok () := by
  have h := add_provider_auth_mode [] credPeer
    (insertA [] credPeerStored.name credPeerStored) credPeerStored rfl
  exact ⟨h, h.2.2.2.2 (Or.inl (by decide)) "203.0.113.9:5060"⟩

theorem getRouteFold_spec (inboundProvider : String) :
    ∀ (rs : List Route) (acc : Option Route),
      (∀ r, rs.foldl (routeStep inboundProvider) acc = some r →
        (r ∈ rs ∧ r.inboundProvider = inboundProvider ∧ r.active = true ∧
          bestPriority acc < r.priority) ∨ acc = some r) ∧
      bestPriority acc ≤ bestPriority (rs.foldl (routeStep inboundProvider) acc) ∧
      (∀ r' ∈ rs, r'.inboundProvider = inboundProvider → r'.active = true →
        r'.priority ≤ bestPriority (rs.foldl (routeStep inboundProvider) acc))
  | [], acc => by
    refine ⟨fun r h => Or.inr h, le_refl _, ?_⟩
    intro r' hr'
    cases hr'
  | r :: rs, acc => by
    rw [List.foldl_cons]
    by_cases hcond : r.inboundProvider = inboundProvider ∧ r.active = true ∧
        bestPriority acc < r.priority
    · have hstep : routeStep inboundProvider acc r = some r := by
        rw [routeStep, if_pos hcond]
      rw [hstep]
      have ih := getRouteFold_spec inboundProvider rs (some r)
      refine ⟨?_, ?_, ?_⟩
      · intro x hx
        rcases ih.1 x hx with ⟨hmem, hin, hact, hlt⟩ | hacc
        · exact Or.inl ⟨List.mem_cons_of_mem r hmem, hin, hact,
            lt_trans hcond.2.2 hlt⟩
        · cases hacc
          exact Or.inl ⟨List.mem_cons_self r rs, hcond.1, hcond.2.1, hcond.2.2⟩
      · exact le_trans (le_of_lt hcond.2.2) ih.2.1
      · intro r' hr' hin hact
        rcases List.mem_cons.mp hr' with rfl | hmem
        · exact le_trans (le_refl _) ih.2.1
        · exact ih.2.2 r' hmem hin hact
    · have hstep : routeStep inboundProvider acc r = acc := by
        rw [routeStep, if_neg hcond]
      rw [hstep]
      have ih := getRouteFold_spec inboundProvider rs acc
      refine ⟨?_, ih.2.1, ?_⟩
      · intro x hx
        rcases ih.1 x hx with ⟨hmem, hprops⟩ | hacc
        · exact Or.inl ⟨List.mem_cons_of_mem r hmem, hprops⟩
        · exact Or.inr hacc
      intro r' hr' hin hact
      rcases List.mem_cons.mp hr' with rfl | hmem
      · have hle : r'.priority ≤ bestPriority acc := by
          by_contra hlt
          exact hcond ⟨hin, hact, lt_of_not_le hlt⟩
        exact le_trans hle ih.2.1
      · exact ih.2.2 r' hmem hin hact

/-- C6 amended.  Over the route map's entries in any iteration order:
when `GetRouteForInbound` returns a route, it is an active route for the
inbound peer, of *non-negative* priority (the scan starts its best at
`-1` and compares strictly), and of maximal priority among that peer's
active routes; and it returns the `no active route found` failure exactly
when every active route for that peer has priority ≤ −1 — so a sole
active route with negative priority is silently dropped and yields
no-route even though an active route exists.  Which of several
equally-prioritized routes wins depends on the map iteration order (the
first encountered is kept), not on the route name.  Both divergences
from the original claim are exhibited in the counterexample. -/
theorem route_resolution_max_priority (routes : List Route) (inboundProvider : String) :
    (∀ r, getRouteForInbound routes inboundProvider = some r →
      r ∈ routes ∧ r.inboundProvider = inboundProvider ∧ r.active = true ∧
        0 ≤ r.priority ∧
        ∀ r' ∈ routes, r'.inboundProvider = inboundProvider → r'.active = true →
          r'.priority ≤ r.priority) ∧
    (getRouteForInbound routes inboundProvider = none →
      ∀ r' ∈ routes, r'.inboundProvider = inboundProvider → r'.active = true →
        r'.priority ≤ -1) := by
  have hspec := getRouteFold_spec inboundProvider routes none
  constructor
  · intro r hr
    rcases hspec.1 r hr with ⟨hmem, hin, hact, hlt⟩ | hacc
    · simp only [bestPriority] at hlt
      refine ⟨hmem, hin, hact, by omega, ?_⟩
      intro r' hmem' hin' hact'
      have := hspec.2.2 r' hmem' hin' hact'
      rw [getRouteForInbound] at hr
      rw [hr] at this
      exact this
    · cases hacc
  · intro hnone r' hmem' hin' hact'
    have := hspec.2.2 r' hmem' hin' hact'
    rw [getRouteForInbound] at hnone
    rw [hnone] at this
    simpa [bestPriority] using this

/-- An active route named `a` for inbound peer `s1` with priority 5. -/
def routeA : Route := ⟨"a", "s1", "s3", "s4", "round_robin", 5, true⟩

/-- An active route named `b`, identical to `routeA` except for its
name. -/
def routeB : Route := ⟨"b", "s1", "s3", "s4", "round_robin", 5, true⟩

/-- An active route for `s1` with negative priority (the schema's
`priority INT` admits it). -/
def routeN : Route := ⟨"n", "s1", "s3", "s4", "round_robin", -1, true⟩

/-- C6 counterexample, both divergences at concrete inputs.  First, the
tie-break: two active routes for the same inbound peer with equal
priority — presented in the order `[b, a]` the scan returns `b`,
presented as `[a, b]` it returns `a`, so the winner among priority ties
is the first route in map iteration order (the comparison being strict),
not the name-stable rule (which would return `a` in both orders).
Second, the negative-priority drop: on a table whose only route for the
peer is active with priority `-1`, the scan — whose running best starts
at `-1` and is beaten only strictly — returns no-route although an
active route for the peer exists. -/
theorem route_tie_break_order_dependent :
    ((getRouteForInbound [routeB, routeA] "s1").map Route.name = some "b") ∧
    ((getRouteForInbound [routeA, routeB] "s1").map Route.name = some "a") ∧
    routeA.name ≠ routeB.name ∧ routeA.priority = routeB.priority ∧
    routeA.inboundProvider = routeB.inboundProvider ∧
    routeA.active = true ∧ routeB.active = true ∧
    getRouteForInbound [routeN] "s1" = none ∧
    routeN.inboundProvider = "s1" ∧ routeN.active = true ∧ routeN.priority = -1 := by
  decide

/-! ## The routing engine (`Router`, `internal/router`)

`Router` state under its mutex `r.mu`: the two ledger indices
(`activeCalls`, `didToCall`), the load-balancer state, the `dids` table
(whose authoritative store is the database; every access runs while the
mutex is held), and the append-only `call_verifications` log.  The fixed
configuration (provider registry, route table) is read but never written
by the call-processing steps. -/

/-- The provider manager's in-memory configuration as the router reads
it. -/
structure Config where
  providers : List (String × Provider)
  routes : List Route
deriving DecidableEq, Repr

/-- The state a router step acts on. -/
structure RouterState where
  dids : List DID
  activeCalls : List (String × CallRecord)
  didToCall : List (String × String)
  lb : LBState
  verifications : List Verification
deriving DecidableEq, Repr

/-- `Router.storeVerificationRecord` (the insert into
`call_verifications`; only the `ani`/`dnis` map entries are stored). -/
def storeVerificationRecord (s : RouterState) (callID step expectedANI expectedDNIS
    receivedANI receivedDNIS sourceIP : String) (verified : Bool) : RouterState :=
  { s with verifications :=
      s.verifications ++
        [⟨callID, step, expectedANI, expectedDNIS, receivedANI, receivedDNIS, sourceIP,
          verified⟩] }

/-- `Router.ProcessIncomingCall` (leg 1).  `r1`/`r2` are the `rand.Intn`
draws a weighted selection would consume.  An error leaves the ledger and
pool untouched (a failed selection can still have advanced the
round-robin cursor, as in the source).  Note the absence of any
duplicate-`callID` check: an existing record under `callID` is simply
overwritten. -/
def processIncomingCall (cfg : Config) (now : Nat) (callID ani dnis inboundProvider : String)
    (r1 r2 : Nat) (s : RouterState) : Except String CallResponse × RouterState :=
  match getRouteForInbound cfg.routes inboundProvider with
  | none => (.error ("no route for inbound provider " ++ inboundProvider), s)
  | some route =>
    let intermediateProviders := getProvidersByName cfg.providers route.intermediateProvider
    if intermediateProviders.isEmpty then
      (.error ("no providers found matching " ++ route.intermediateProvider), s)
    else
      match selectProvider s.lb intermediateProviders route.loadBalanceMode r1 with
      | .error e => (.error e, s)
      | .ok (intermediateProvider, lb1) =>
        let s1 := { s with lb := lb1 }
        let finalProviders := getProvidersByName cfg.providers route.finalProvider
        if finalProviders.isEmpty then
          (.error ("no providers found matching " ++ route.finalProvider), s1)
        else
          match selectProvider s1.lb finalProviders route.loadBalanceMode r2 with
          | .error e => (.error e, s1)
          | .ok (finalProvider, lb2) =>
            let s2 := { s1 with lb := lb2 }
            match getAvailableDID intermediateProvider.name s2.dids with
            | none =>
              (.error ("no available DIDs for provider " ++ intermediateProvider.name), s2)
            | some did =>
              let record : CallRecord :=
                ⟨callID, ani, dnis, dnis, did, inboundProvider, intermediateProvider.name,
                  finalProvider.name, "ACTIVE", "S1_TO_S2", now⟩
              let s3 := { s2 with
                dids := markDIDInUse s2.dids did dnis,
                activeCalls := insertA s2.activeCalls callID record,
                didToCall := insertA s2.didToCall did callID }
              let s4 := storeVerificationRecord s3 callID "S1_TO_S2" ani dnis ani dnis "" true
              let lbInc := incrementActiveCalls
                (incrementActiveCalls s4.lb intermediateProvider.name 1) finalProvider.name 1
              let s5 := { s4 with lb := lbInc }
              (.ok ⟨"success", did, "endpoint-" ++ intermediateProvider.name, dnis, did⟩, s5)

/-- `Router.ProcessReturnCall` (leg 3): lookup by DID, source-IP
verification against the stored intermediate peer, warning-only ANI
check (no state effect), then the `S3_TO_S2` / `RETURNED_FROM_S3`
transition and the identity-restoring response. -/
def processReturnCall (cfg : Config) (ani2 did provider sourceIP : String) (s : RouterState) :
    Except String CallResponse × RouterState :=
  match lookupA s.didToCall did with
  | none => (.error ("no active call for DID " ++ did), s)
  | some callID =>
    match lookupA s.activeCalls callID with
    | none => (.error "no call record found", s)
    | some record =>
      match lookupA cfg.providers record.intermediateProvider with
      | none =>
        (.error ("intermediate provider not found: provider " ++
          record.intermediateProvider ++ " not found"), s)
      | some intermediateProvider =>
        match verifyProviderIP intermediateProvider sourceIP with
        | .error _ =>
          (.error ("unauthorized source IP: " ++ sourceIP),
            storeVerificationRecord s callID "S3_TO_S2" ani2 did ani2 did sourceIP false)
        | .ok _ =>
          let s1 := storeVerificationRecord s callID "S3_TO_S2" record.originalDNIS did
            ani2 did sourceIP true
          let record' := { record with currentStep := "S3_TO_S2", status := "RETURNED_FROM_S3" }
          let s2 := { s1 with activeCalls := insertA s1.activeCalls callID record' }
          (.ok ⟨"success", "", "endpoint-" ++ record.finalProvider, record.originalANI,
            record.originalDNIS⟩, s2)

/-- `Router.ProcessFinalCall` (leg 5): lookup by call id with the
ANI/DNIS fallback scan, source-IP verification against the stored final
peer, stats updates, DID release, and removal from both indices (the
record's terminal `COMPLETED` fields go to the database only — the entry
leaves the in-memory maps). -/
def processFinalCall (cfg : Config) (now : Nat) (callID ani dnis provider sourceIP : String)
    (s : RouterState) : Except String Unit × RouterState :=
  let found : Option (String × CallRecord) :=
    match lookupA s.activeCalls callID with
    | some record => some (callID, record)
    | none =>
      s.activeCalls.find? fun e =>
        decide (e.2.originalANI = ani) && decide (e.2.originalDNIS = dnis)
  match found with
  | none => (.error "call not found", s)
  | some (cid, record) =>
    match lookupA cfg.providers record.finalProvider with
    | none =>
      (.error ("final provider not found: provider " ++ record.finalProvider ++ " not found"),
        s)
    | some finalProvider =>
      match verifyProviderIP finalProvider sourceIP with
      | .error _ =>
        (.error ("unauthorized source IP: " ++ sourceIP),
          storeVerificationRecord s cid "S4_TO_S2" ani dnis ani dnis sourceIP false)
      | .ok _ =>
        let s1 := storeVerificationRecord s cid "S4_TO_S2" record.originalANI
          record.originalDNIS ani dnis sourceIP true
        let duration : ℚ := ((now - record.startTime : Nat) : ℚ)
        let lb1 := updateStats s1.lb record.intermediateProvider true duration now
        let lb2 := updateStats lb1 record.finalProvider true duration now
        let lb3 := incrementActiveCalls lb2 record.intermediateProvider (-1)
        let lb4 := incrementActiveCalls lb3 record.finalProvider (-1)
        (.ok (),
          { s1 with
            lb := lb4,
            dids := releaseDID s1.dids record.assignedDID,
            activeCalls := eraseA s1.activeCalls cid,
            didToCall := eraseA s1.didToCall record.assignedDID })

/-- One stale-call abandonment inside `cleanupStaleCalls`: failed-call
stats against both peers, active-counter decrements, DID release, and
removal from both indices (the `ABANDONED` fields go to the database
only). -/
def abandonCall (now : Nat) (s : RouterState) (cid : String) (record : CallRecord) :
    RouterState :=
  let lb1 := updateStats s.lb record.intermediateProvider false 0 now
  let lb2 := updateStats lb1 record.finalProvider false 0 now
  let lb3 := incrementActiveCalls lb2 record.intermediateProvider (-1)
  let lb4 := incrementActiveCalls lb3 record.finalProvider (-1)
  { s with
    lb := lb4,
    dids := releaseDID s.dids record.assignedDID,
    activeCalls := eraseA s.activeCalls cid,
    didToCall := eraseA s.didToCall record.assignedDID }

/-- `now.Sub(record.StartTime) > 30*time.Minute`, in seconds. -/
def isStale (now : Nat) (record : CallRecord) : Bool :=
  decide (now - record.startTime > 1800)

/-- `Router.cleanupStaleCalls`: one sweep over the ledger entries (each
entry of the ranged map is visited once; only the visited entry is ever
deleted). -/
def cleanupStaleCalls (now : Nat) (s : RouterState) : RouterState :=
  s.activeCalls.foldl
    (fun st e => if isStale now e.2 then abandonCall now st e.1 e.2 else st) s

/-- The AGI gateway's hangup handler (`internal/agi/server.go`,
`handleHangup`): it reads `agi_uniqueid`, logs, and acknowledges — it
never touches the router, the ledger, or the DID pool. -/
def handleHangup (s : RouterState) (callID : String) : RouterState := s

/-- A step of the routing engine as the gateway can trigger it, with all
inputs (including the clock and any random draws) made explicit. -/
inductive RouterEvent where
  | incoming (now : Nat) (callID ani dnis inboundProvider : String) (r1 r2 : Nat)
  | returned (ani2 did provider sourceIP : String)
  | finalized (now : Nat) (callID ani dnis provider sourceIP : String)
  | sweep (now : Nat)
  | hangup (callID : String)
deriving DecidableEq, Repr

/-- The state transition of one event (responses discarded). -/
def applyEvent (cfg : Config) (s : RouterState) : RouterEvent → RouterState
  | .incoming now callID ani dnis inboundProvider r1 r2 =>
    (processIncomingCall cfg now callID ani dnis inboundProvider r1 r2 s).2
  | .returned ani2 did provider sourceIP => (processReturnCall cfg ani2 did provider sourceIP s).2
  | .finalized now callID ani dnis provider sourceIP =>
    (processFinalCall cfg now callID ani dnis provider sourceIP s).2
  | .sweep now => cleanupStaleCalls now s
  | .hangup callID => handleHangup s callID

/-- Run a trace of events. -/
def runEvents (cfg : Config) (s : RouterState) : List RouterEvent → RouterState
  | [] => s
  | e :: es => runEvents cfg (applyEvent cfg s e) es

/-- A trace is fresh when every `incoming` event carries a call id not
present in the ledger at the moment it fires. -/
def FreshTrace (cfg : Config) (s : RouterState) : List RouterEvent → Prop
  | [] => True
  | e :: es =>
    (match e with
     | .incoming _ callID _ _ _ _ _ => lookupA s.activeCalls callID = none
     | _ => True) ∧
    FreshTrace cfg (applyEvent cfg s e) es

/-! ## The two-index ledger invariant -/

/-- The cross-index consistency of the call ledger and the DID pool:
well-formed keys, agreement of the by-DID index with the by-call-id index,
`in_use` exactly on the indexed DIDs, and every ledger entry in a live
status. -/
structure LedgerInv (dids : List DID) (activeCalls : List (String × CallRecord))
    (didToCall : List (String × String)) : Prop where
  didsNodup : (dids.map DID.number).Nodup
  callKeysNodup : (activeCalls.map Prod.fst).Nodup
  didKeysNodup : (didToCall.map Prod.fst).Nodup
  agree : ∀ d c, lookupA didToCall d = some c ↔
    ∃ rec, lookupA activeCalls c = some rec ∧ rec.assignedDID = d
  inUseIff : ∀ d, didInUse dids d = true ↔ ∃ c, lookupA didToCall d = some c
  statusOK : ∀ c rec, lookupA activeCalls c = some rec →
    rec.status = "ACTIVE" ∨ rec.status = "RETURNED_FROM_S3"

/-- The ledger invariant of a router state. -/
def RouterInv (s : RouterState) : Prop :=
  LedgerInv s.dids s.activeCalls s.didToCall

theorem routerInv_fields {s s' : RouterState} (h1 : s'.dids = s.dids)
    (h2 : s'.activeCalls = s.activeCalls) (h3 : s'.didToCall = s.didToCall)
    (h : RouterInv s) : RouterInv s' := by
  rw [RouterInv, h1, h2, h3]; exact h

theorem LedgerInv.didToCall_of_record {dids activeCalls didToCall}
    (h : LedgerInv dids activeCalls didToCall) {c : String} {rec : CallRecord}
    (hrec : lookupA activeCalls c = some rec) :
    lookupA didToCall rec.assignedDID = some c :=
  (h.agree rec.assignedDID c).mpr ⟨rec, hrec, rfl⟩

theorem LedgerInv.didToCall_none_of_free {dids activeCalls didToCall}
    (h : LedgerInv dids activeCalls didToCall) {d : String}
    (hfree : didInUse dids d = false) : lookupA didToCall d = none := by
  rcases hl : lookupA didToCall d with _ | c
  · rfl
  · have : didInUse dids d = true := (h.inUseIff d).mpr ⟨c, hl⟩
    rw [hfree] at this
    cases this

/-- Inserting a fresh call record over a free DID preserves the ledger
invariant (the heart of leg 1). -/
theorem ledgerInv_insert {dids activeCalls didToCall}
    (h : LedgerInv dids activeCalls didToCall) {did callID : String} {record : CallRecord}
    {r : DID} (hmem : r ∈ dids) (hnum : r.number = did) (hfr : r.inUse = false)
    (hfresh : lookupA activeCalls callID = none)
    (hdid : record.assignedDID = did)
    (hstatus : record.status = "ACTIVE" ∨ record.status = "RETURNED_FROM_S3")
    (dest : String) :
    LedgerInv (markDIDInUse dids did dest) (insertA activeCalls callID record)
      (insertA didToCall did callID) := by
  have hfree : didInUse dids did = false := by
    rw [didInUse, ← hnum, findDID_of_mem_nodup h.didsNodup hmem]
    exact hfr
  have hdtc : lookupA didToCall did = none := h.didToCall_none_of_free hfree
  have hnoref : ∀ c' rec', lookupA activeCalls c' = some rec' → rec'.assignedDID ≠ did := by
    intro c' rec' hl hcontra
    have := h.didToCall_of_record hl
    rw [hcontra, hdtc] at this
    cases this
  refine ⟨?_, ?_, ?_, ?_, ?_, ?_⟩
  · rw [numbers_markDIDInUse]; exact h.didsNodup
  · exact keys_insertA_nodup callID record h.callKeysNodup
  · exact keys_insertA_nodup did callID h.didKeysNodup
  · intro d c
    by_cases hd : d = did
    · subst hd
      rw [lookupA_insertA_self]
      by_cases hc : c = callID
      · subst hc
        rw [lookupA_insertA_self]
        exact ⟨fun _ => ⟨record, rfl, hdid⟩, fun _ => rfl⟩
      · rw [lookupA_insertA_ne _ _ fun hcc => hc hcc]
        constructor
        · intro hcallc
          cases hcallc
          exact absurd rfl hc
        · rintro ⟨rec', hl', hd'⟩
          exact absurd hd' (hnoref c rec' hl')
    · rw [lookupA_insertA_ne _ _ hd]
      by_cases hc : c = callID
      · subst hc
        rw [lookupA_insertA_self]
        constructor
        · intro hl
          rcases (h.agree d c).mp hl with ⟨rec', hl', _⟩
          rw [hfresh] at hl'
          cases hl'
        · rintro ⟨rec', hrec', hd'⟩
          cases hrec'
          exact absurd (hd'.symm.trans hdid) hd
      · rw [lookupA_insertA_ne _ _ fun hcc => hc hcc]
        exact h.agree d c
  · intro d
    by_cases hd : d = did
    · subst hd
      rw [didInUse_markDIDInUse_self dest ⟨r, hmem, hnum⟩, lookupA_insertA_self]
      exact ⟨fun _ => ⟨callID, rfl⟩, fun _ => rfl⟩
    · rw [didInUse_markDIDInUse_ne dids dest hd, lookupA_insertA_ne _ _ hd]
      exact h.inUseIff d
  · intro c rec hl
    by_cases hc : c = callID
    · subst hc
      rw [lookupA_insertA_self] at hl
      cases hl
      exact hstatus
    · rw [lookupA_insertA_ne _ _ fun hcc => hc hcc] at hl
      exact h.statusOK c rec hl

/-- Updating an existing record in place — same DID, live status —
preserves the ledger invariant (the heart of leg 3). -/
theorem ledgerInv_update_status {dids activeCalls didToCall}
    (h : LedgerInv dids activeCalls didToCall) {callID : String} {record record' : CallRecord}
    (hrec : lookupA activeCalls callID = some record)
    (hdid : record'.assignedDID = record.assignedDID)
    (hstatus : record'.status = "ACTIVE" ∨ record'.status = "RETURNED_FROM_S3") :
    LedgerInv dids (insertA activeCalls callID record') didToCall := by
  refine ⟨h.didsNodup, keys_insertA_nodup callID record' h.callKeysNodup, h.didKeysNodup,
    ?_, h.inUseIff, ?_⟩
  · intro d c
    by_cases hc : c = callID
    · subst hc
      rw [(h.agree d c)]
      constructor
      · rintro ⟨rec', hl', hd'⟩
        rw [hrec] at hl'
        cases hl'
        exact ⟨record', lookupA_insertA_self _ _ _, hdid ▸ hd'⟩
      · rintro ⟨rec', hl', hd'⟩
        rw [lookupA_insertA_self] at hl'
        cases hl'
        exact ⟨record, hrec, hdid ▸ hd'⟩
    · rw [lookupA_insertA_ne _ _ fun hcc => hc hcc]
      exact h.agree d c
  · intro c rec hl
    by_cases hc : c = callID
    · subst hc
      rw [lookupA_insertA_self] at hl
      cases hl
      exact hstatus
    · rw [lookupA_insertA_ne _ _ fun hcc => hc hcc] at hl
      exact h.statusOK c rec hl

/-- Removing a record and releasing its DID preserves the ledger
invariant (the heart of leg 5 and of the cleanup sweep). -/
theorem ledgerInv_remove {dids activeCalls didToCall}
    (h : LedgerInv dids activeCalls didToCall) {cid : String} {record : CallRecord}
    (hrec : lookupA activeCalls cid = some record) :
    LedgerInv (releaseDID dids record.assignedDID) (eraseA activeCalls cid)
      (eraseA didToCall record.assignedDID) := by
  have hdtc : lookupA didToCall record.assignedDID = some cid := h.didToCall_of_record hrec
  refine ⟨?_, keys_eraseA_nodup cid h.callKeysNodup,
    keys_eraseA_nodup record.assignedDID h.didKeysNodup, ?_, ?_, ?_⟩
  · rw [numbers_releaseDID]; exact h.didsNodup
  · intro d c
    constructor
    · intro hl
      obtain ⟨hdne, hl'⟩ := lookupA_eraseA_some hl
      rcases (h.agree d c).mp hl' with ⟨rec', hlc, hd'⟩
      have hcne : c ≠ cid := by
        intro hcc
        subst hcc
        rw [hrec] at hlc
        cases hlc
        exact hdne hd'.symm
      rw [lookupA_eraseA_ne _ hcne]
      exact ⟨rec', hlc, hd'⟩
    · rintro ⟨rec', hl', hd'⟩
      obtain ⟨hcne, hlc⟩ := lookupA_eraseA_some hl'
      have hdne : d ≠ record.assignedDID := by
        intro hdd
        subst hdd
        have := (h.agree record.assignedDID c).mpr ⟨rec', hlc, hd'⟩
        rw [hdtc] at this
        cases this
        exact hcne rfl
      rw [lookupA_eraseA_ne _ hdne]
      exact (h.agree d c).mpr ⟨rec', hlc, hd'⟩
  · intro d
    by_cases hd : d = record.assignedDID
    · subst hd
      rw [didInUse_releaseDID_self, lookupA_eraseA_self]
      constructor
      · intro hf; cases hf
      · rintro ⟨c, hc⟩; cases hc
    · rw [didInUse_releaseDID_ne dids hd, lookupA_eraseA_ne _ hd]
      exact h.inUseIff d
  · intro c rec hl
    obtain ⟨_, hl'⟩ := lookupA_eraseA_some hl
    exact h.statusOK c rec hl'

theorem routerInv_processIncomingCall (cfg : Config) (now : Nat)
    (callID ani dnis inboundProvider : String) (r1 r2 : Nat) {s : RouterState}
    (hinv : RouterInv s) (hfresh : lookupA s.activeCalls callID = none) :
    RouterInv (processIncomingCall cfg now callID ani dnis inboundProvider r1 r2 s).2 := by
  simp only [processIncomingCall]
  rcases hroute : getRouteForInbound cfg.routes inboundProvider with _ | route
  · simp only [hroute]; exact hinv
  · simp only [hroute]
    by_cases hie : (getProvidersByName cfg.providers route.intermediateProvider).isEmpty = true
    · rw [if_pos hie]; exact hinv
    · rw [if_neg hie]
      rcases hsel1 : selectProvider s.lb
          (getProvidersByName cfg.providers route.intermediateProvider)
          route.loadBalanceMode r1 with e | ⟨iProv, lb1⟩
      · simp only [hsel1]; exact hinv
      · simp only [hsel1]
        by_cases hfe : (getProvidersByName cfg.providers route.finalProvider).isEmpty = true
        · rw [if_pos hfe]; exact hinv
        · rw [if_neg hfe]
          rcases hsel2 : selectProvider lb1
              (getProvidersByName cfg.providers route.finalProvider)
              route.loadBalanceMode r2 with e | ⟨fProv, lb2⟩
          · simp only [hsel2]; exact hinv
          · simp only [hsel2]
            rcases hdget : getAvailableDID iProv.name s.dids with _ | did
            · simp only [hdget]; exact hinv
            · simp only [hdget]
              rcases getAvailableDID_free hdget with ⟨r, hmem, hnum, hfr⟩
              exact ledgerInv_insert hinv hmem hnum hfr hfresh rfl (Or.inl rfl) dnis

theorem routerInv_processReturnCall (cfg : Config) (ani2 did provider sourceIP : String)
    {s : RouterState} (hinv : RouterInv s) :
    RouterInv (processReturnCall cfg ani2 did provider sourceIP s).2 := by
  simp only [processReturnCall]
  rcases hd : lookupA s.didToCall did with _ | callID
  · simp only [hd]; exact hinv
  · simp only [hd]
    rcases hr : lookupA s.activeCalls callID with _ | record
    · simp only [hr]; exact hinv
    · simp only [hr]
      rcases hp : lookupA cfg.providers record.intermediateProvider with _ | iProv
      · simp only [hp]; exact hinv
      · simp only [hp]
        rcases hv : verifyProviderIP iProv sourceIP with e | u
        · simp only [hv]; exact hinv
        · simp only [hv]
          exact ledgerInv_update_status hinv hr rfl (Or.inr rfl)

theorem routerInv_processFinalCall (cfg : Config) (now : Nat)
    (callID ani dnis provider sourceIP : String) {s : RouterState} (hinv : RouterInv s) :
    RouterInv (processFinalCall cfg now callID ani dnis provider sourceIP s).2 := by
  simp only [processFinalCall]
  rcases hl : lookupA s.activeCalls callID with _ | record
  · simp only [hl]
    rcases hf : s.activeCalls.find? (fun e =>
        decide (e.2.originalANI = ani) && decide (e.2.originalDNIS = dnis)) with _ | e
    · simp only [hf]; exact hinv
    · obtain ⟨cid, record⟩ := e
      simp only [hf]
      have hrec : lookupA s.activeCalls cid = some record :=
        lookupA_of_mem_nodup hinv.callKeysNodup (List.mem_of_find?_eq_some hf)
      rcases hp : lookupA cfg.providers record.finalProvider with _ | fProv
      · simp only [hp]; exact hinv
      · simp only [hp]
        rcases hv : verifyProviderIP fProv sourceIP with e' | u
        · simp only [hv]; exact hinv
        · simp only [hv]; exact ledgerInv_remove hinv hrec
  · simp only [hl]
    rcases hp : lookupA cfg.providers record.finalProvider with _ | fProv
    · simp only [hp]; exact hinv
    · simp only [hp]
      rcases hv : verifyProviderIP fProv sourceIP with e' | u
      · simp only [hv]; exact hinv
      · simp only [hv]; exact ledgerInv_remove hinv hl

theorem routerInv_sweepAux (now : Nat) :
    ∀ (entries : List (String × CallRecord)) (st : RouterState),
      RouterInv st →
      (∀ e ∈ entries, lookupA st.activeCalls e.1 = some e.2) →
      (entries.map Prod.fst).Nodup →
      RouterInv (entries.foldl
        (fun acc e => if isStale now e.2 then abandonCall now acc e.1 e.2 else acc) st)
  | [], st, hinv, _, _ => hinv
  | e :: es, st, hinv, hpres, hnd => by
    rw [List.foldl_cons]
    simp only [List.map_cons, List.nodup_cons] at hnd
    by_cases hstale : isStale now e.2 = true
    · rw [if_pos hstale]
      have hrec := hpres e (List.mem_cons_self e es)
      have hinv' : RouterInv (abandonCall now st e.1 e.2) := ledgerInv_remove hinv hrec
      apply routerInv_sweepAux now es _ hinv' _ hnd.2
      intro e' he'
      have hne : e'.1 ≠ e.1 := by
        intro hc
        exact hnd.1 (hc ▸ List.mem_map.mpr ⟨e', he', rfl⟩)
      show lookupA (eraseA st.activeCalls e.1) e'.1 = some e'.2
      rw [lookupA_eraseA_ne _ hne]
      exact hpres e' (List.mem_cons_of_mem e he')
    · rw [if_neg hstale]
      exact routerInv_sweepAux now es st hinv
        (fun e' he' => hpres e' (List.mem_cons_of_mem e he')) hnd.2

theorem routerInv_cleanup (now : Nat) {s : RouterState} (hinv : RouterInv s) :
    RouterInv (cleanupStaleCalls now s) := by
  rw [cleanupStaleCalls]
  exact routerInv_sweepAux now s.activeCalls s hinv
    (fun e he => lookupA_of_mem_nodup hinv.callKeysNodup he) hinv.callKeysNodup

theorem routerInv_run (cfg : Config) :
    ∀ (tr : List RouterEvent) (s : RouterState), RouterInv s → FreshTrace cfg s tr →
      RouterInv (runEvents cfg s tr)
  | [], _, hinv, _ => hinv
  | e :: es, s, hinv, hft => by
    obtain ⟨hc, hrest⟩ := hft
    apply routerInv_run cfg es _ _ hrest
    cases e with
    | incoming now callID ani dnis inboundProvider r1 r2 =>
      exact routerInv_processIncomingCall cfg now callID ani dnis inboundProvider r1 r2 hinv hc
    | returned ani2 did provider sourceIP =>
      exact routerInv_processReturnCall cfg ani2 did provider sourceIP hinv
    | finalized now callID ani dnis provider sourceIP =>
      exact routerInv_processFinalCall cfg now callID ani dnis provider sourceIP hinv
    | sweep now => exact routerInv_cleanup now hinv
    | hangup callID => exact hinv

/-- The claim's shape of the exclusivity/agreement invariant: every
in-use DID is referenced by exactly one live ledger entry, and the by-DID
index maps `d` to `c` exactly when the by-call-id index holds a record at
`c` whose assigned DID is `d`. -/
def DIDLedgerAgreement (s : RouterState) : Prop :=
  (∀ d, didInUse s.dids d = true →
    ∃! c, ∃ rec, lookupA s.activeCalls c = some rec ∧ rec.assignedDID = d ∧
      (rec.status = "ACTIVE" ∨ rec.status = "RETURNED_FROM_S3")) ∧
  (∀ d c, lookupA s.didToCall d = some c ↔
    ∃ rec, lookupA s.activeCalls c = some rec ∧ rec.assignedDID = d)

theorem routerInv_agreement {s : RouterState} (hinv : RouterInv s) : DIDLedgerAgreement s := by
  refine ⟨?_, hinv.agree⟩
  intro d hd
  rcases (hinv.inUseIff d).mp hd with ⟨c, hc⟩
  rcases (hinv.agree d c).mp hc with ⟨rec, hrec, hdid⟩
  refine ⟨c, ⟨rec, hrec, hdid, hinv.statusOK c rec hrec⟩, ?_⟩
  intro c' ⟨rec', hrec', hdid', _⟩
  have := (hinv.agree d c').mpr ⟨rec', hrec', hdid'⟩
  rw [hc] at this
  cases this
  rfl

/-- C1 amended.  Starting from any state satisfying the two-index ledger
invariant (in particular the boot state: empty ledger, all DIDs free),
every sequence of `ProcessIncomingCall`, `ProcessReturnCall`,
`ProcessFinalCall`, hangup and cleanup-sweep steps in which no
`ProcessIncomingCall` reuses a call id still present in the ledger
preserves it: every in-use DID is referenced by exactly one Call-Record
with status in {ACTIVE, RETURNED_FROM_S3}, and `didToCall` maps `d` to
`c` iff `activeCalls[c]` exists with assigned DID `d`.  The freshness
proviso is forced: `ProcessIncomingCall` performs no duplicate-call-id
check, and reusing a live call id overwrites its record and strands its
old DID (see the counterexample). -/
theorem ledger_invariant_fresh_callids (cfg : Config) (s0 : RouterState)
    (tr : List RouterEvent) (h0 : RouterInv s0) (hfresh : FreshTrace cfg s0 tr) :
    DIDLedgerAgreement (runEvents cfg s0 tr) :=
  routerInv_agreement (routerInv_run cfg tr s0 h0 hfresh)

/-- Seeded inbound peer `s1` (ip auth). -/
def witPeerS1 : Provider :=
  ⟨"s1", "inbound", "192.168.1.10", 5060, "", "", "ip", ["ulaw"], 0, 0, 1, true⟩

/-- Seeded intermediate peer `s3a` (ip auth, host `10.0.0.20`). -/
def witPeerS3 : Provider :=
  ⟨"s3a", "intermediate", "10.0.0.20", 5060, "", "", "ip", ["ulaw"], 0, 0, 2, true⟩

/-- Seeded final peer `s4` (ip auth, host `172.16.0.30`). -/
def witPeerS4 : Provider :=
  ⟨"s4", "final", "172.16.0.30", 5060, "", "", "ip", ["ulaw"], 0, 0, 1, true⟩

/-- A configuration with the three seeded peers and one round-robin
route `s1 → s3a → s4`. -/
def witCfg : Config :=
  ⟨[("s1", witPeerS1), ("s3a", witPeerS3), ("s4", witPeerS4)],
    [⟨"r", "s1", "s3a", "s4", "round_robin", 0, true⟩]⟩

/-- A two-DID pool owned by `s3a`, both free. -/
def witDids : List DID :=
  [⟨"18005550001", "s3a", false, ""⟩, ⟨"18005550002", "s3a", false, ""⟩]

/-- The boot state: empty ledger, free pool. -/
def witState : RouterState := ⟨witDids, [], [], ⟨[], []⟩, []⟩

theorem witDids_free (d : String) : didInUse witDids d = false := by
  rw [didInUse]
  rcases hf : findDID witDids d with _ | r
  · rfl
  · simp only [witDids, findDID] at hf
    split_ifs at hf
    · cases hf; rfl
    · cases hf; rfl

theorem routerInv_witState : RouterInv witState := by
  refine ⟨by decide, by decide, by decide, ?_, ?_, ?_⟩
  · intro d c
    constructor
    · intro h; cases h
    · rintro ⟨rec, h, _⟩; cases h
  · intro d
    rw [show witState.dids = witDids from rfl, witDids_free d]
    constructor
    · intro h; cases h
    · rintro ⟨c, hc⟩; cases hc
  · intro c rec h; cases h

/-- C1 witness: one successful incoming call over the seeded
configuration, from the boot state. -/
theorem ledger_invariant_fresh_callids_witness :
    DIDLedgerAgreement (runEvents witCfg witState
      [.incoming 0 "C1" "15550000001" "15550000002" "s1" 0 0]) :=
  ledger_invariant_fresh_callids witCfg witState
    [.incoming 0 "C1" "15550000001" "15550000002" "s1" 0 0]
    routerInv_witState ⟨rfl, trivial⟩

/-- The first incoming call, call id `C`. -/
def dupE1 : RouterEvent := .incoming 0 "C" "15550000001" "15550000002" "s1" 0 0

/-- A second incoming call reusing call id `C`. -/
def dupE2 : RouterEvent := .incoming 1 "C" "15550000003" "15550000004" "s1" 0 0

/-- C1 counterexample.  Two incoming calls with the same call id `C` are
a reachable sequence of `ProcessIncomingCall` steps, and afterwards the
claimed invariant is false: DID `18005550001` (taken by the first call)
is still in use and `didToCall` still maps it to `C`, yet the single
ledger record at `C` — the overwrite by the second call — carries DID
`18005550002`: the in-use DID `18005550001` is referenced by *zero* live
records, and the two indices disagree. -/
theorem ledger_invariant_duplicate_callid_violation :
    didInUse (runEvents witCfg witState [dupE1, dupE2]).dids "18005550001" = true ∧
    lookupA (runEvents witCfg witState [dupE1, dupE2]).didToCall "18005550001" = some "C" ∧
    (runEvents witCfg witState [dupE1, dupE2]).activeCalls.map Prod.fst = ["C"] ∧
    (lookupA (runEvents witCfg witState [dupE1, dupE2]).activeCalls "C").map
        CallRecord.assignedDID = some "18005550002" ∧
    ("18005550001" : String) ≠ "18005550002" := by
  decide

/-- C3 amended.  `ProcessIncomingCall` asserts no precondition on the
call id: invoked with a call id already present in the ledger it
nevertheless resolves the route, selects peers, acquires a DID and
succeeds, and the by-call-id index afterwards holds the record of the
*new* invocation — the previous record is overwritten (and its DID left
behind, see the C1 counterexample). -/
theorem incoming_duplicate_overwrites (cfg : Config) (now : Nat)
    (callID ani dnis inboundProvider : String) (r1 r2 : Nat) (s : RouterState)
    (oldRec : CallRecord) (resp : CallResponse) (s' : RouterState)
    (hdup : lookupA s.activeCalls callID = some oldRec)
    (hok : processIncomingCall cfg now callID ani dnis inboundProvider r1 r2 s =
      (.ok resp, s')) :
    resp.status = "success" ∧
    ∃ newRec, lookupA s'.activeCalls callID = some newRec ∧
      newRec.originalANI = ani ∧ newRec.originalDNIS = dnis ∧
      newRec.status = "ACTIVE" ∧ newRec.currentStep = "S1_TO_S2" ∧
      newRec.startTime = now ∧ newRec.assignedDID = resp.didAssigned := by
  simp only [processIncomingCall] at hok
  rcases hroute : getRouteForInbound cfg.routes inboundProvider with _ | route
  · simp only [hroute] at hok; simp at hok
  · simp only [hroute] at hok
    by_cases hie : (getProvidersByName cfg.providers route.intermediateProvider).isEmpty = true
    · rw [if_pos hie] at hok; simp at hok
    · rw [if_neg hie] at hok
      rcases hsel1 : selectProvider s.lb
          (getProvidersByName cfg.providers route.intermediateProvider)
          route.loadBalanceMode r1 with e | ⟨iProv, lb1⟩
      · simp only [hsel1] at hok; simp at hok
      · simp only [hsel1] at hok
        by_cases hfe : (getProvidersByName cfg.providers route.finalProvider).isEmpty = true
        · rw [if_pos hfe] at hok; simp at hok
        · rw [if_neg hfe] at hok
          rcases hsel2 : selectProvider lb1
              (getProvidersByName cfg.providers route.finalProvider)
              route.loadBalanceMode r2 with e | ⟨fProv, lb2⟩
          · simp only [hsel2] at hok; simp at hok
          · simp only [hsel2] at hok
            rcases hdget : getAvailableDID iProv.name s.dids with _ | did
            · simp only [hdget] at hok; simp at hok
            · simp only [hdget] at hok
              rw [Prod.mk.injEq] at hok
              obtain ⟨hr, hs⟩ := hok
              rw [Except.ok.injEq] at hr
              subst hr
              subst hs
              exact ⟨rfl,
                ⟨⟨callID, ani, dnis, dnis, did, inboundProvider, iProv.name, fProv.name,
                    "ACTIVE", "S1_TO_S2", now⟩,
                  lookupA_insertA_self _ _ _, rfl, rfl, rfl, rfl, rfl, rfl⟩⟩

/-- The ledger record created by the first incoming call `dupE1`. -/
def dupRec1 : CallRecord :=
  ⟨"C", "15550000001", "15550000002", "15550000002", "18005550001", "s1", "s3a", "s4",
    "ACTIVE", "S1_TO_S2", 0⟩

/-- The response of the duplicate second incoming call `dupE2`. -/
def dupResp2 : CallResponse :=
  ⟨"success", "18005550002", "endpoint-s3a", "15550000004", "18005550002"⟩

/-- C3 witness: the duplicate invocation `dupE2` against the state left
by `dupE1`. -/
theorem incoming_duplicate_overwrites_witness :
    dupResp2.status = "success" ∧
    ∃ newRec, lookupA (runEvents witCfg witState [dupE1, dupE2]).activeCalls "C" =
        some newRec ∧
      newRec.originalANI = "15550000003" ∧ newRec.originalDNIS = "15550000004" ∧
      newRec.status = "ACTIVE" ∧ newRec.currentStep = "S1_TO_S2" ∧
      newRec.startTime = 1 ∧ newRec.assignedDID = dupResp2.didAssigned :=
  incoming_duplicate_overwrites witCfg 1 "C" "15550000003" "15550000004" "s1" 0 0
    (runEvents witCfg witState [dupE1]) dupRec1 dupResp2
    (runEvents witCfg witState [dupE1, dupE2]) (by decide) rfl

/-- C3 counterexample.  With call id `C` already present (created by
`dupE1`), a second `ProcessIncomingCall` under the same call id does not
fail: it returns success, acquires the second DID, and replaces the
stored record (its original ANI changes from the first call's to the
second call's) — the claimed assert-before-work precondition does not
exist in the code. -/
theorem incoming_duplicate_no_failure :
    (processIncomingCall witCfg 1 "C" "15550000003" "15550000004" "s1" 0 0
        (runEvents witCfg witState [dupE1])).1 = .ok dupResp2 ∧
    didInUse (runEvents witCfg witState [dupE1, dupE2]).dids "18005550002" = true ∧
    (lookupA (runEvents witCfg witState [dupE1]).activeCalls "C").map
        CallRecord.originalANI = some "15550000001" ∧
    (lookupA (runEvents witCfg witState [dupE1, dupE2]).activeCalls "C").map
        CallRecord.originalANI = some "15550000003" :=
  ⟨rfl, rfl, rfl, rfl⟩

/-- C4.  When the return leg finds its record by DID and source-IP
verification succeeds, `ProcessReturnCall` moves the record to step
`S3_TO_S2` and status `RETURNED_FROM_S3` and answers with the restored
identities `{next-hop = endpoint-<finalPeer>, ANI-to-send = original-ANI,
DNIS-to-send = original-DNIS}` — for *every* value of `ani2`: a mismatch
against the stored original DNIS is only logged and changes nothing in
the outcome (`ani2` is unconstrained below). -/
theorem return_call_success_response (cfg : Config) (ani2 did provider sourceIP : String)
    (s : RouterState) (callID : String) (record : CallRecord) (iProv : Provider)
    (hdid : lookupA s.didToCall did = some callID)
    (hrec : lookupA s.activeCalls callID = some record)
    (hprov : lookupA cfg.providers record.intermediateProvider = some iProv)
    (hverify : verifyProviderIP iProv sourceIP = .ok ()) :
    (processReturnCall cfg ani2 did provider sourceIP s).1 =
      .ok ⟨"success", "", "endpoint-" ++ record.finalProvider, record.originalANI,
        record.originalDNIS⟩ ∧
    lookupA (processReturnCall cfg ani2 did provider sourceIP s).2.activeCalls callID =
      some { record with currentStep := "S3_TO_S2", status := "RETURNED_FROM_S3" } := by
  simp only [processReturnCall, hdid, hrec, hprov, hverify]
  exact ⟨trivial, lookupA_insertA_self _ _ _⟩

/-- C4 witness: the return leg for the call created by `dupE1`, with a
deliberately mismatching `ani2 = 99999` and a matching source IP — the
call still succeeds and restores the original identities. -/
theorem return_call_success_response_witness :
    (processReturnCall witCfg "99999" "18005550001" "s3a" "10.0.0.20:5060"
        (runEvents witCfg witState [dupE1])).1 =
      .ok ⟨"success", "", "endpoint-" ++ dupRec1.finalProvider, dupRec1.originalANI,
        dupRec1.originalDNIS⟩ ∧
    lookupA (processReturnCall witCfg "99999" "18005550001" "s3a" "10.0.0.20:5060"
        (runEvents witCfg witState [dupE1])).2.activeCalls "C" =
      some { dupRec1 with currentStep := "S3_TO_S2", status := "RETURNED_FROM_S3" } :=
  return_call_success_response witCfg "99999" "18005550001" "s3a" "10.0.0.20:5060"
    (runEvents witCfg witState [dupE1]) "C" dupRec1 witPeerS3
    (by decide) (by decide) (by decide) rfl

/-- C5.  When the source IP fails verification against the stored
intermediate peer (ip or both auth and a host mismatch), the return leg
returns the unauthorized-source error, appends exactly one verification
record with `verified = false`, and changes nothing else: the pool, both
ledger indices and the load-balancer state are untouched — in particular
the record keeps its status and step and its DID stays in use. -/
theorem return_call_ip_mismatch_frame (cfg : Config) (ani2 did provider sourceIP : String)
    (s : RouterState) (callID : String) (record : CallRecord) (iProv : Provider)
    (hdid : lookupA s.didToCall did = some callID)
    (hrec : lookupA s.activeCalls callID = some record)
    (hprov : lookupA cfg.providers record.intermediateProvider = some iProv)
    (hauth : iProv.authType = "ip" ∨ iProv.authType = "both")
    (hmismatch : iProv.host ≠ extractIP sourceIP) :
    (processReturnCall cfg ani2 did provider sourceIP s).1 =
      .error ("unauthorized source IP: " ++ sourceIP) ∧
    (processReturnCall cfg ani2 did provider sourceIP s).2.dids = s.dids ∧
    (processReturnCall cfg ani2 did provider sourceIP s).2.activeCalls = s.activeCalls ∧
    (processReturnCall cfg ani2 did provider sourceIP s).2.didToCall = s.didToCall ∧
    (processReturnCall cfg ani2 did provider sourceIP s).2.lb = s.lb ∧
    (processReturnCall cfg ani2 did provider sourceIP s).2.verifications =
      s.verifications ++ [⟨callID, "S3_TO_S2", ani2, did, ani2, did, sourceIP, false⟩] := by
  have hv : verifyProviderIP iProv sourceIP =
      .error ("IP mismatch: expected " ++ iProv.host ++ ", got " ++ extractIP sourceIP) := by
    rw [verifyProviderIP, if_pos ⟨hauth, hmismatch⟩]
  simp only [processReturnCall, hdid, hrec, hprov, hv]
  refine ⟨?_, ?_, ?_, ?_, ?_, ?_⟩ <;> trivial

/-- C5 witness: the return leg for the call created by `dupE1` from the
unauthorized address `10.0.0.99` — rejected, logged as unverified, and
the state otherwise unchanged (the DID stays in use). -/
theorem return_call_ip_mismatch_frame_witness :
    (processReturnCall witCfg "15550000002" "18005550001" "s3a" "10.0.0.99:5060"
        (runEvents witCfg witState [dupE1])).1 =
      .error ("unauthorized source IP: " ++ "10.0.0.99:5060") ∧
    (processReturnCall witCfg "15550000002" "18005550001" "s3a" "10.0.0.99:5060"
        (runEvents witCfg witState [dupE1])).2.dids =
      (runEvents witCfg witState [dupE1]).dids ∧
    (processReturnCall witCfg "15550000002" "18005550001" "s3a" "10.0.0.99:5060"
        (runEvents witCfg witState [dupE1])).2.activeCalls =
      (runEvents witCfg witState [dupE1]).activeCalls ∧
    (processReturnCall witCfg "15550000002" "18005550001" "s3a" "10.0.0.99:5060"
        (runEvents witCfg witState [dupE1])).2.didToCall =
      (runEvents witCfg witState [dupE1]).didToCall ∧
    (processReturnCall witCfg "15550000002" "18005550001" "s3a" "10.0.0.99:5060"
        (runEvents witCfg witState [dupE1])).2.lb =
      (runEvents witCfg witState [dupE1]).lb ∧
    (processReturnCall witCfg "15550000002" "18005550001" "s3a" "10.0.0.99:5060"
        (runEvents witCfg witState [dupE1])).2.verifications =
      (runEvents witCfg witState [dupE1]).verifications ++
        [⟨"C", "S3_TO_S2", "15550000002", "18005550001", "15550000002", "18005550001",
          "10.0.0.99:5060", false⟩] :=
  return_call_ip_mismatch_frame witCfg "15550000002" "18005550001" "s3a" "10.0.0.99:5060"
    (runEvents witCfg witState [dupE1]) "C" dupRec1 witPeerS3
    (by decide) (by decide) (by decide) (Or.inl (by decide)) (by decide)

/-- C8 amended.  The gateway's hangup handler only acknowledges the
event: it is the identity on the router state — the ledger entry for the
hung-up call (when one exists) keeps its status and its DID stays in
use.  Abandonment of lingering records is performed only by the periodic
cleanup sweep, thirty minutes after the call started. -/
theorem hangup_handler_noop (s : RouterState) (callID : String) :
    handleHangup s callID = s ∧
    lookupA (handleHangup s callID).activeCalls callID = lookupA s.activeCalls callID ∧
    (handleHangup s callID).dids = s.dids :=
  ⟨rfl, rfl, rfl⟩

/-- C8 counterexample.  A hangup for call `C` whose record still exists:
the handler leaves the state exactly as it was — the record stays
`ACTIVE` (no terminal abandoned state) and its DID `18005550001` remains
in use, refuting the claim that the hangup handler abandons the call and
releases its DID. -/
theorem hangup_leaves_record_untouched :
    handleHangup (runEvents witCfg witState [dupE1]) "C" =
      runEvents witCfg witState [dupE1] ∧
    (lookupA (handleHangup (runEvents witCfg witState [dupE1]) "C").activeCalls "C").map
        CallRecord.status = some "ACTIVE" ∧
    didInUse (handleHangup (runEvents witCfg witState [dupE1]) "C").dids "18005550001" =
      true := by
  decide

end AsteriskRouter
